import Mathlib

/-!
Verification development for the `sd_simulation` system-dynamics engine of the
energy-efficiency repository.  The repository ships the engine's usage guide
(`docs/usage_guide.md`) and its notebook consumers; the engine module itself
(`sd_simulation.py`) is not part of the published sources, so the definitions
below are modelled from the repository's design specification, faithful to its
words: typed variables (stocks, flows, auxiliaries, constants), weighted and
optionally delayed influence edges with per-edge bounded FIFO delay buffers,
per-step evaluation in a delay-0 topological order, Euler/RK4 stock
integration with non-negativity clamping, result recording, and a
state-isolated sensitivity-analysis driver.

Numeric values are modelled as rationals (exact arithmetic).  The logistic
sigmoid is transcendental, so the engine is parameterised over the sigmoid
function `sig : ℚ → ℚ`; every theorem holds for every choice of `sig`.
-/

/-- Modelled from the spec: the kind of a model variable,
`kind ∈ {STOCK, FLOW, AUXILIARY, CONSTANT}`. -/
inductive VariableType
  | STOCK
  | FLOW
  | AUXILIARY
  | CONSTANT
deriving DecidableEq

/-- Modelled from the spec: the nonlinear transform tag of an influence edge,
`mode ∈ {LINEAR, LOGISTIC, SATURATION, THRESHOLD[+threshold]}`. -/
inductive InfluenceMode
  | LINEAR
  | LOGISTIC
  | SATURATION
  | THRESHOLD
deriving DecidableEq

/-- Modelled from the spec: an influence edge — `source` (referenced by name),
`weight`, `mode`, `delay` (integer ≥ 0 in steps), an optional `threshold`
(required by THRESHOLD mode), logistic parameters `k`/`midpoint` with the
spec's "sensible defaults", and the edge's bounded FIFO delay `buffer`
(nonempty exactly when `delay > 0`, seeded at simulation construction). -/
structure Influence where
  source : String
  weight : ℚ
  mode : InfluenceMode
  delay : ℕ
  threshold : Option ℚ
  logistic_k : ℚ
  logistic_midpoint : ℚ
  buffer : List ℚ
deriving DecidableEq

/-- Modelled from the spec: a model variable — unique `name`, current `value`,
`previous_value` (for rate-of-change), `var_type`, `accept_negative`
(default true; false clamps post-update values to ≥ 0), ordered `inflows` and
`outflows` (STOCK only, referenced by name), and the ordered list of
`influences` whose aggregate defines a FLOW/AUXILIARY variable's new value. -/
structure SimVariable where
  name : String
  value : ℚ
  previous_value : ℚ
  var_type : VariableType
  accept_negative : Bool
  inflows : List String
  outflows : List String
  influences : List Influence
deriving DecidableEq

/-- Modelled from the spec: `SimVariable(name, initial_value, var_type)` with
the default `accept_negative=True`; `previous_value` starts at the initial
value, relation lists start empty. -/
def SimVariable.create (name : String) (initial_value : ℚ)
    (var_type : VariableType) : SimVariable :=
  ⟨name, initial_value, initial_value, var_type, true, [], [], []⟩

/-- Modelled from the spec: `SimVariable(name, initial_value, var_type,
accept_negative=False)`. -/
def SimVariable.createNN (name : String) (initial_value : ℚ)
    (var_type : VariableType) : SimVariable :=
  ⟨name, initial_value, initial_value, var_type, false, [], [], []⟩

/-- Modelled from the spec: `add_influence` with every edge parameter spelled
out (source variable, weight, mode, delay, optional threshold).  The logistic
parameters keep their defaults (`k = 1`, `midpoint = 0`); the delay buffer is
seeded later, at simulation construction. -/
def SimVariable.add_influence_full (v : SimVariable) (source_var : SimVariable)
    (weight : ℚ) (mode : InfluenceMode) (delay : ℕ)
    (threshold : Option ℚ) : SimVariable :=
  { v with influences :=
      v.influences ++ [⟨source_var.name, weight, mode, delay, threshold, 1, 0, []⟩] }

/-- Modelled from the spec: `add_influence(source_var, weight)` with the
defaulted parameters left implicit — mode defaults to LINEAR and delay to 0,
as in the usage guide's population model. -/
def SimVariable.add_influence (v : SimVariable) (source_var : SimVariable)
    (weight : ℚ) : SimVariable :=
  v.add_influence_full source_var weight InfluenceMode.LINEAR 0 none

/-- Modelled from the spec: `add_influence(source_var, weight, delay=d)` —
mode defaults to LINEAR, the delay is given. -/
def SimVariable.add_influence_delay (v : SimVariable) (source_var : SimVariable)
    (weight : ℚ) (delay : ℕ) : SimVariable :=
  v.add_influence_full source_var weight InfluenceMode.LINEAR delay none

/-- Modelled from the spec: `add_inflow(flow_var)` — records the flow by name
in the stock's ordered inflow list. -/
def SimVariable.add_inflow (v : SimVariable) (flow_var : SimVariable) : SimVariable :=
  { v with inflows := v.inflows ++ [flow_var.name] }

/-- Modelled from the spec: `add_outflow(flow_var)`. -/
def SimVariable.add_outflow (v : SimVariable) (flow_var : SimVariable) : SimVariable :=
  { v with outflows := v.outflows ++ [flow_var.name] }

/-- Look a variable up by name in the ordered registry (first match). -/
def lookupVar (vars : List SimVariable) (n : String) : Option SimVariable :=
  vars.find? (fun v => v.name == n)

/-- Current value of the named variable (0 if absent; construction-time
validation rejects dangling names, so the default is never hit in a built
model). -/
def valueOf (vars : List SimVariable) (n : String) : ℚ :=
  match lookupVar vars n with
  | some v => v.value
  | none => 0

/-- Modelled from the spec's error design: `ConfigurationError` for build-time
configuration faults, `CyclicDependencyError` for a zero-delay dependency
cycle.  All structural errors surface at construction time. -/
inductive SimError
  | ConfigurationError
  | CyclicDependencyError
deriving DecidableEq

/-- Modelled from the spec: every influence source and every inflow/outflow
must reference a known variable name. -/
def sourceNamesOk (vars : List SimVariable) : Bool :=
  vars.all (fun v =>
    v.influences.all (fun e => (lookupVar vars e.source).isSome) &&
    v.inflows.all (fun n => (lookupVar vars n).isSome) &&
    v.outflows.all (fun n => (lookupVar vars n).isSome))

/-- Modelled from the spec: a THRESHOLD-mode influence must carry a threshold. -/
def thresholdsOk (vars : List SimVariable) : Bool :=
  vars.all (fun v =>
    v.influences.all (fun e =>
      e.mode != InfluenceMode.THRESHOLD || e.threshold.isSome))

/-- Modelled from the spec: the build-time dependency edges of a variable —
the sources of its `delay = 0` influences; CONSTANTs are always ready. -/
def depsOf (v : SimVariable) : List String :=
  if v.var_type = VariableType.CONSTANT then []
  else (v.influences.filter (fun e => e.delay == 0)).map (fun e => e.source)

/-- A pending node is ready when none of its dependencies is still pending. -/
def readyNode (remaining : List (String × List String)) (p : String × List String) : Bool :=
  p.2.all (fun d => remaining.all (fun q => q.1 != d))

/-- Kahn's algorithm on the zero-delay dependency graph, fuelled by the node
count: repeatedly emit the first ready node (deterministic, declaration
order); if none is ready while nodes remain, a zero-delay cycle exists. -/
def topoAux : ℕ → List (String × List String) → List String →
    Except SimError (List String)
  | 0, remaining, acc =>
      if remaining.isEmpty then Except.ok acc.reverse
      else Except.error SimError.CyclicDependencyError
  | Nat.succ fuel, remaining, acc =>
      match remaining.find? (readyNode remaining) with
      | none =>
          if remaining.isEmpty then Except.ok acc.reverse
          else Except.error SimError.CyclicDependencyError
      | some p => topoAux fuel (remaining.erase p) (p.1 :: acc)

/-- Modelled from the spec: build-time topological sort of the variables using
only `delay = 0` influence edges; a cycle among them is a
`CyclicDependencyError`. -/
def topoSort (vars : List SimVariable) : Except SimError (List String) :=
  topoAux vars.length (vars.map (fun v => (v.name, depsOf v))) []

/-- Modelled from the spec: at construction each `delay > 0` edge's bounded
FIFO buffer of length `delay` is seeded with the source's initial value
replicated, so early reads return a well-defined seed. -/
def seedBuffers (vars : List SimVariable) : List SimVariable :=
  vars.map (fun v =>
    { v with influences := v.influences.map (fun e =>
        if e.delay == 0 then e
        else { e with buffer := List.replicate e.delay (valueOf vars e.source) }) })

/-- Modelled from the spec: `integration_method ∈ {EULER, RK4}`. -/
inductive IntegrationMethod
  | EULER
  | RK4
deriving DecidableEq

/-- Modelled from the spec: the construction input is the string
`"euler" | "rk4"`; anything else is a ConfigurationError. -/
def parseMethod (s : String) : Option IntegrationMethod :=
  if s == "euler" then some IntegrationMethod.EULER
  else if s == "rk4" then some IntegrationMethod.RK4
  else none

/-- Modelled from the spec: the simulation engine state — the immutable
construction-time variable specification (the registry is rebuilt from it per
sensitivity run), the current variable registry, the build-time evaluation
order, `dt`, `time_steps`, the integration method, `current_step`, elapsed
`time`, the per-variable recorded result sequences, and the elapsed-time
sequence. -/
structure Simulation where
  initial_vars : List SimVariable
  vars : List SimVariable
  order : List String
  dt : ℚ
  time_steps : ℕ
  integration_method : IntegrationMethod
  current_step : ℕ
  time : ℚ
  results : List (String × List ℚ)
  time_series : List ℚ
deriving DecidableEq

/-- Modelled from the spec: simulation construction from an already-parsed
integration method: validate `time_steps > 0` and `dt > 0`, validate edge
references and THRESHOLD thresholds (ConfigurationError), topologically sort
the zero-delay graph (CyclicDependencyError), seed the delay buffers, record
every variable's step-0 initial value and elapsed time 0. -/
def mkSimulationM (vars : List SimVariable) (time_steps : ℕ) (dt : ℚ)
    (im : IntegrationMethod) : Except SimError Simulation :=
  if time_steps = 0 then Except.error SimError.ConfigurationError
  else if dt ≤ 0 then Except.error SimError.ConfigurationError
  else if ¬ (sourceNamesOk vars && thresholdsOk vars) then
    Except.error SimError.ConfigurationError
  else
    match topoSort vars with
    | Except.error e => Except.error e
    | Except.ok ord =>
        let vs := seedBuffers vars
        Except.ok
          { initial_vars := vars
            vars := vs
            order := ord
            dt := dt
            time_steps := time_steps
            integration_method := im
            current_step := 0
            time := 0
            results := vs.map (fun v => (v.name, [v.value]))
            time_series := [0] }

/-- Modelled from the spec: `Simulation(variables, time_steps, dt,
integration_method)` with the method given as the string `"euler" | "rk4"`
(unknown strings are a ConfigurationError). -/
def mkSimulation (vars : List SimVariable) (time_steps : ℕ) (dt : ℚ)
    (method : String) : Except SimError Simulation :=
  match parseMethod method with
  | none => Except.error SimError.ConfigurationError
  | some im => mkSimulationM vars time_steps dt im

/-- Modelled from the spec: the source value an influence edge supplies — the
source's current value for `delay = 0`, otherwise the front of the edge's
FIFO delay buffer (the source's value `delay` steps earlier, or the seed). -/
def sourceValue (vars : List SimVariable) (e : Influence) : ℚ :=
  if e.delay == 0 then valueOf vars e.source else e.buffer.headD 0

/-- Modelled from the spec: `contribution(edge) -> real`; transform the
(possibly delayed) source value by the edge's mode:
LINEAR `weight * x`; LOGISTIC `weight * sigmoid (k * (x - midpoint))`;
SATURATION `weight * x / (1 + |x|)`; THRESHOLD `weight * x` if
`x ≥ threshold` else 0 (a THRESHOLD edge without a threshold is rejected at
construction; its contribution is vacuously 0). -/
def contribution (sig : ℚ → ℚ) (vars : List SimVariable) (e : Influence) : ℚ :=
  let x := sourceValue vars e
  match e.mode with
  | InfluenceMode.LINEAR => e.weight * x
  | InfluenceMode.LOGISTIC => e.weight * sig (e.logistic_k * (x - e.logistic_midpoint))
  | InfluenceMode.SATURATION => e.weight * x / (1 + |x|)
  | InfluenceMode.THRESHOLD =>
      match e.threshold with
      | some t => if t ≤ x then e.weight * x else 0
      | none => 0

/-- Modelled from the spec: a FLOW/AUXILIARY variable's new value is the sum
of all its influence contributions; with zero influences the value is frozen
at its last value (no implicit baseline).  `previous_value` tracks the old
value for the rate-of-change accessor. -/
def evalVar (sig : ℚ → ℚ) (vars : List SimVariable) (v : SimVariable) : SimVariable :=
  if v.influences.isEmpty then { v with previous_value := v.value }
  else { v with
          previous_value := v.value
          value := (v.influences.map (contribution sig vars)).sum }

/-- Modelled from the spec, step phase (a): evaluate the FLOW/AUXILIARY
variables in the build-time topological order; each evaluation sees the
registry with all earlier variables already updated this step. -/
def evalVariables (sig : ℚ → ℚ) (ord : List String)
    (vars : List SimVariable) : List SimVariable :=
  ord.foldl (fun vs n =>
    vs.map (fun v =>
      if v.name == n &&
         (v.var_type == VariableType.FLOW || v.var_type == VariableType.AUXILIARY)
      then evalVar sig vs v else v)) vars

/-- Modelled from the spec: the net-flow rate of a stock,
`f(s) = Σ inflows(s) − Σ outflows(s)`. -/
def netFlow (vars : List SimVariable) (v : SimVariable) : ℚ :=
  (v.inflows.map (valueOf vars)).sum - (v.outflows.map (valueOf vars)).sum

/-- Modelled from the spec: the raw integration update.  EULER:
`value + dt*f`.  RK4: `value + dt/6*(k1 + 2k2 + 2k3 + k4)`; the spec leaves
open whether the influence graph is re-evaluated at each stage — this model
takes the documented cheaper choice of sampling the flows once per step and
reusing them across the four stages, so each `k` is the sampled net flow. -/
def integrateValue (method : IntegrationMethod) (dt : ℚ) (v : SimVariable)
    (f : ℚ) : ℚ :=
  match method with
  | IntegrationMethod.EULER => v.value + dt * f
  | IntegrationMethod.RK4 =>
      let k1 := f
      let k2 := f
      let k3 := f
      let k4 := f
      v.value + dt / 6 * (k1 + 2 * k2 + 2 * k3 + k4)

/-- Modelled from the spec, step phase (b): integrate every STOCK from the
just-computed flows; after the update, a stock with `accept_negative = false`
is clamped to `max 0 value'`. -/
def integrateStocks (method : IntegrationMethod) (dt : ℚ)
    (vars : List SimVariable) : List SimVariable :=
  vars.map (fun v =>
    if v.var_type == VariableType.STOCK then
      let upd := integrateValue method dt v (netFlow vars v)
      { v with
          previous_value := v.value
          value := if v.accept_negative then upd else max 0 upd }
    else v)

/-- Modelled from the spec, step phase (c): push each delayed edge's source's
new value into the edge's FIFO buffer, dropping the oldest entry so the
buffer stays bounded at length `delay`. -/
def pushBuffers (vars : List SimVariable) : List SimVariable :=
  vars.map (fun v =>
    { v with influences := v.influences.map (fun e =>
        if e.delay == 0 then e
        else { e with buffer := e.buffer.tail ++ [valueOf vars e.source] }) })

/-- Modelled from the spec: one time step — (a) evaluate FLOW/AUXILIARY
variables in topological order, (b) integrate STOCKs, (c) push delay buffers,
(d) append all current values to the results, advance `current_step` and the
elapsed time by `dt`. -/
def Simulation.step (sig : ℚ → ℚ) (sim : Simulation) : Simulation :=
  let vars1 := evalVariables sig sim.order sim.vars
  let vars2 := integrateStocks sim.integration_method sim.dt vars1
  let vars3 := pushBuffers vars2
  { sim with
      vars := vars3
      current_step := sim.current_step + 1
      time := sim.time + sim.dt
      results := sim.results.map (fun p => (p.1, p.2 ++ [valueOf vars3 p.1]))
      time_series := sim.time_series ++ [sim.time + sim.dt] }

/-- Iterate `step` a given number of times. -/
def stepN (sig : ℚ → ℚ) : ℕ → Simulation → Simulation
  | 0, sim => sim
  | Nat.succ k, sim => stepN sig k (sim.step sig)

/-- Modelled from the spec: `run()` executes `step()` exactly `time_steps`
times. -/
def Simulation.run (sig : ℚ → ℚ) (sim : Simulation) : Simulation :=
  stepN sig sim.time_steps sim

/-- Modelled from the spec: `get_results()` — the recorded sequence of every
non-constant variable. -/
def Simulation.get_results (sim : Simulation) : List (String × List ℚ) :=
  sim.results.filter (fun p =>
    match lookupVar sim.vars p.1 with
    | some v => v.var_type != VariableType.CONSTANT
    | none => false)

/-- Modelled from the spec: `get_time_series()` — the ordered elapsed-time
sequence `[0, dt, 2dt, …]`. -/
def Simulation.get_time_series (sim : Simulation) : List ℚ :=
  sim.time_series

/-- Modelled from the spec: the rate-of-change accessor,
`(value − previous_value) / dt`. -/
def SimVariable.get_rate_of_change (v : SimVariable) (dt : ℚ) : ℚ :=
  (v.value - v.previous_value) / dt

/-- The recorded sequence of one named variable. -/
def recordedSeries (sim : Simulation) (n : String) : List ℚ :=
  match sim.get_results.find? (fun p => p.1 == n) with
  | some p => p.2
  | none => []

/-- Modelled from the spec: the sensitivity sample points,
`value_i = low + i*(high-low)/(steps-1)` for `i` in `0..steps-1` when
`steps > 1`, else just `low`. -/
def samplePoints (low high : ℚ) (steps : ℕ) : List ℚ :=
  if steps ≤ 1 then [low]
  else (List.range steps).map
    (fun i : ℕ => low + (i : ℚ) * (high - low) / ((steps : ℚ) - 1))

/-- Set the named variable's initial value in an (unbuilt) variable
specification; only the value is touched, never the structure. -/
def setInitial (vars : List SimVariable) (n : String) (w : ℚ) : List SimVariable :=
  vars.map (fun v =>
    if v.name == n then { v with value := w, previous_value := w } else v)

/-- A fresh standalone simulation run: rebuild the registry from the immutable
variable specification with the named variable's initial value replaced, run
the configured number of steps, return its recorded results. -/
def standaloneResults (sig : ℚ → ℚ) (vars : List SimVariable) (var_name : String)
    (w : ℚ) (time_steps : ℕ) (dt : ℚ) (im : IntegrationMethod) :
    List (String × List ℚ) :=
  match mkSimulationM (setInitial vars var_name w) time_steps dt im with
  | Except.ok s => (s.run sig).get_results
  | Except.error _ => []

/-- Modelled from the spec: `sensitivity_analysis(variable_name, (low, high),
steps)` — `steps < 1` or `low > high` is a ConfigurationError; otherwise, for
each linearly spaced sample, rebuild a fully independent registry from the
immutable specification with the named variable's initial value set to the
sample, run a full simulation of `time_steps`, and record its results keyed
by the sampled value, in sweep order. -/
def Simulation.sensitivity_analysis (sig : ℚ → ℚ) (sim : Simulation)
    (var_name : String) (low high : ℚ) (steps : ℕ) :
    Except SimError (List (ℚ × List (String × List ℚ))) :=
  if steps < 1 then Except.error SimError.ConfigurationError
  else if high < low then Except.error SimError.ConfigurationError
  else Except.ok ((samplePoints low high steps).map (fun w =>
    (w, standaloneResults sig sim.initial_vars var_name w
          sim.time_steps sim.dt sim.integration_method)))

/-! ## Concrete models and projections used by the verification -/

/-- The usage guide's population model: a `Population` stock (1000), `Births`
and `Deaths` flows influenced by `Population` with the constant rates' values
0.03 and 0.01 as weights (default mode and delay), `Births` an inflow and
`Deaths` an outflow of `Population`. -/
def create_population_model : List SimVariable :=
  let population := SimVariable.create "Population" 1000 VariableType.STOCK
  let births := SimVariable.create "Births" 0 VariableType.FLOW
  let deaths := SimVariable.create "Deaths" 0 VariableType.FLOW
  let birthRate := SimVariable.create "BirthRate" (3/100) VariableType.CONSTANT
  let deathRate := SimVariable.create "DeathRate" (1/100) VariableType.CONSTANT
  let births := births.add_influence population birthRate.value
  let deaths := deaths.add_influence population deathRate.value
  let population := (population.add_inflow births).add_outflow deaths
  [population, births, deaths, birthRate, deathRate]

/-- A vacuous simulation used only as the default of `getOkSim`. -/
def emptySimulation : Simulation :=
  ⟨[], [], [], 0, 0, IntegrationMethod.EULER, 0, 0, [], []⟩

/-- Extract a successfully built simulation. -/
def getOkSim (x : Except SimError Simulation) : Simulation :=
  match x with
  | Except.ok s => s
  | Except.error _ => emptySimulation

/-- The usage guide's population scenario: 100 time steps, `dt = 1`, Euler. -/
def popSim : Simulation :=
  getOkSim (mkSimulation create_population_model 100 1 "euler")

/-- The population model's build-time evaluation order. -/
def popOrder : List String :=
  ["Population", "Births", "Deaths", "BirthRate", "DeathRate"]

/-- The shape of the population model's registry during a run, parameterised
by the current and previous values of the stock and the two flows. -/
def popState (p pp b bp d dp : ℚ) : List SimVariable :=
  [⟨"Population", p, pp, VariableType.STOCK, true, ["Births"], ["Deaths"], []⟩,
   ⟨"Births", b, bp, VariableType.FLOW, true, [], [],
     [⟨"Population", 3/100, InfluenceMode.LINEAR, 0, none, 1, 0, []⟩]⟩,
   ⟨"Deaths", d, dp, VariableType.FLOW, true, [], [],
     [⟨"Population", 1/100, InfluenceMode.LINEAR, 0, none, 1, 0, []⟩]⟩,
   ⟨"BirthRate", 3/100, 3/100, VariableType.CONSTANT, true, [], [], []⟩,
   ⟨"DeathRate", 1/100, 1/100, VariableType.CONSTANT, true, [], [], []⟩]

/-- The population stock's closed-form trajectory, `1000 * (51/50)^k`. -/
def popSeq (k : ℕ) : ℚ := 1000 * (51/50)^k

/-- Two auxiliaries influencing each other through zero-delay edges — a
zero-delay cycle. -/
def mutualZeroDelayModel : List SimVariable :=
  let a := SimVariable.create "A" 1 VariableType.AUXILIARY
  let b := SimVariable.create "B" 1 VariableType.AUXILIARY
  [a.add_influence b 1, b.add_influence a 1]

/-- The same mutually influencing pair with one edge carrying a delay. -/
def mutualDelayModel (d : ℕ) : List SimVariable :=
  let a := SimVariable.create "A" 1 VariableType.AUXILIARY
  let b := SimVariable.create "B" 1 VariableType.AUXILIARY
  [a.add_influence_delay b 1 d, b.add_influence a 1]

/-- A three-variable ring of zero-delay influences: A depends on B, B on C,
C on A. -/
def threeCycleModel : List SimVariable :=
  let a := SimVariable.create "A" 1 VariableType.AUXILIARY
  let b := SimVariable.create "B" 1 VariableType.AUXILIARY
  let c := SimVariable.create "C" 1 VariableType.AUXILIARY
  [a.add_influence b 1, b.add_influence c 1, c.add_influence a 1]

/-- The delay buffer of the `i`-th influence of the `j`-th variable. -/
def bufferAt (vars : List SimVariable) (j i : ℕ) : Option (List ℚ) :=
  match vars[j]? with
  | some v =>
      match v.influences[i]? with
      | some e => some e.buffer
      | none => none
  | none => none

/-- The delayed source value the `i`-th influence of the `j`-th variable
would read (the front of its FIFO buffer). -/
def delayedRead (vars : List SimVariable) (j i : ℕ) : Option ℚ :=
  match bufferAt vars j i with
  | some b => some (b.headD 0)
  | none => none

/-- The delay-correctness scenario: a source `S` whose initial value 1
changes to 5 at the first step (it copies the constant `C = 5`), observed by
a target `T` through a `delay = 3` edge. -/
def delayDemoModel : List SimVariable :=
  let c := SimVariable.create "C" 5 VariableType.CONSTANT
  let s := SimVariable.create "S" 1 VariableType.AUXILIARY
  let t := SimVariable.create "T" 0 VariableType.AUXILIARY
  [c, s.add_influence c 1, (t.add_influence_full s 1 InfluenceMode.LINEAR 3 none)]

/-- The delay scenario built for six Euler steps at `dt = 1`. -/
def delaySim : Simulation :=
  getOkSim (mkSimulationM delayDemoModel 6 1 IntegrationMethod.EULER)

/-- The target variable `T` of the delay scenario as it sits in the built
registry, its `delay = 3` edge seeded with the source's initial value 1. -/
def delayTargetVar : SimVariable :=
  ⟨"T", 0, 0, VariableType.AUXILIARY, true, [], [],
    [⟨"S", 1, InfluenceMode.LINEAR, 3, none, 1, 0, [1, 1, 1]⟩]⟩

/-- The seeded `delay = 3` edge of the delay scenario. -/
def delayEdge : Influence := ⟨"S", 1, InfluenceMode.LINEAR, 3, none, 1, 0, [1, 1, 1]⟩

/-- A one-variable model used to witness the simulation-level theorems. -/
def singleVarModel : List SimVariable :=
  [SimVariable.create "x" 1 VariableType.AUXILIARY]

/-- A model containing a THRESHOLD influence with no threshold supplied. -/
def thresholdMissingModel : List SimVariable :=
  let x := SimVariable.create "x" 1 VariableType.AUXILIARY
  let y := SimVariable.create "y" 0 VariableType.AUXILIARY
  [x, y.add_influence_full x 1 InfluenceMode.THRESHOLD 0 none]

/-- A non-negative stock (initial value 1) drained by a frozen flow of 5 —
its first Euler update would be `1 - 5 = -4 < 0`. -/
def clampDemoModel : List SimVariable :=
  let f := SimVariable.create "F" 5 VariableType.FLOW
  let s := (SimVariable.createNN "S" 1 VariableType.STOCK).add_outflow f
  [s, f]

/-- A no-influence, no-flow model whose single stock starts negative while
refusing negative values. -/
def negativeStockModel : List SimVariable :=
  [SimVariable.createNN "S" (-1) VariableType.STOCK]

/-- The structural (value-free, buffer-free) content of an influence edge. -/
def influenceStruct (e : Influence) :
    String × ℚ × InfluenceMode × ℕ × Option ℚ × ℚ × ℚ :=
  (e.source, e.weight, e.mode, e.delay, e.threshold, e.logistic_k, e.logistic_midpoint)

/-- The structural (value-free) content of a variable: everything a step
leaves untouched. -/
def varStruct (v : SimVariable) :
    String × VariableType × Bool × List String × List String ×
      List (String × ℚ × InfluenceMode × ℕ × Option ℚ × ℚ × ℚ) :=
  (v.name, v.var_type, v.accept_negative, v.inflows, v.outflows,
    v.influences.map influenceStruct)

/-- The name and current value of a variable. -/
def nameValue (v : SimVariable) : String × ℚ := (v.name, v.value)

/-- Extract a successfully computed sensitivity mapping. -/
def getOkResults (x : Except SimError (List (ℚ × List (String × List ℚ)))) :
    List (ℚ × List (String × List ℚ)) :=
  match x with
  | Except.ok m => m
  | Except.error _ => []

/-- A THRESHOLD edge (threshold 1, weight 2) reading `x`, used as a concrete
instance of the hard-gate evaluation rule. -/
def thresholdDemoEdge : Influence :=
  ⟨"x", 2, InfluenceMode.THRESHOLD, 0, some 1, 1, 0, []⟩

/-! ## Generic registry lemmas -/

theorem lookupVar_map (vs : List SimVariable) (f : SimVariable → SimVariable)
    (hf : ∀ v, (f v).name = v.name) (n : String) :
    lookupVar (vs.map f) n = (lookupVar vs n).map f := by
  unfold lookupVar
  rw [List.find?_map]
  have hp : ((fun v : SimVariable => v.name == n) ∘ f) =
      (fun v : SimVariable => v.name == n) := by
    funext v
    simp [Function.comp, hf]
  rw [hp]

theorem valueOf_map (vs : List SimVariable) (f : SimVariable → SimVariable)
    (hf : ∀ v, (f v).name = v.name) (hv : ∀ v, (f v).value = v.value)
    (n : String) : valueOf (vs.map f) n = valueOf vs n := by
  unfold valueOf
  rw [lookupVar_map vs f hf]
  cases lookupVar vs n with
  | none => rfl
  | some v => simp [hv]

theorem varStruct_evalVar (sig : ℚ → ℚ) (vs : List SimVariable) (v : SimVariable) :
    varStruct (evalVar sig vs v) = varStruct v := by
  unfold evalVar
  split <;> rfl

theorem evalVariables_varStruct (sig : ℚ → ℚ) (ord : List String)
    (vs : List SimVariable) :
    (evalVariables sig ord vs).map varStruct = vs.map varStruct := by
  induction ord generalizing vs with
  | nil => rfl
  | cons n ord ih =>
      unfold evalVariables at ih ⊢
      rw [List.foldl_cons, ih, List.map_map]
      apply List.map_congr_left
      intro v _
      simp only [Function.comp]
      split
      · exact varStruct_evalVar ..
      · rfl

theorem integrateStocks_varStruct (m : IntegrationMethod) (dt : ℚ)
    (vs : List SimVariable) :
    (integrateStocks m dt vs).map varStruct = vs.map varStruct := by
  unfold integrateStocks
  rw [List.map_map]
  apply List.map_congr_left
  intro v _
  simp only [Function.comp]
  split <;> rfl

theorem pushBuffers_varStruct (vs : List SimVariable) :
    (pushBuffers vs).map varStruct = vs.map varStruct := by
  unfold pushBuffers
  rw [List.map_map]
  apply List.map_congr_left
  intro v _
  simp only [Function.comp, varStruct, List.map_map, Prod.mk.injEq, true_and]
  apply List.map_congr_left
  intro e _
  simp only [Function.comp, influenceStruct]
  split <;> rfl

theorem pushBuffers_nameValue (vs : List SimVariable) :
    (pushBuffers vs).map nameValue = vs.map nameValue := by
  unfold pushBuffers
  rw [List.map_map]
  rfl

theorem valueOf_pushBuffers (vs : List SimVariable) (n : String) :
    valueOf (pushBuffers vs) n = valueOf vs n := by
  apply valueOf_map <;> intro v <;> rfl

theorem seedBuffers_varStruct (vs : List SimVariable) :
    (seedBuffers vs).map varStruct = vs.map varStruct := by
  unfold seedBuffers
  rw [List.map_map]
  apply List.map_congr_left
  intro v _
  simp only [Function.comp, varStruct, List.map_map, Prod.mk.injEq, true_and]
  apply List.map_congr_left
  intro e _
  simp only [Function.comp, influenceStruct]
  split <;> rfl

theorem seedBuffers_nameValue (vs : List SimVariable) :
    (seedBuffers vs).map nameValue = vs.map nameValue := by
  unfold seedBuffers
  rw [List.map_map]
  rfl

theorem valueOf_seedBuffers (vs : List SimVariable) (n : String) :
    valueOf (seedBuffers vs) n = valueOf vs n := by
  apply valueOf_map <;> intro v <;> rfl

theorem setInitial_varStruct (vs : List SimVariable) (n : String) (w : ℚ) :
    (setInitial vs n w).map varStruct = vs.map varStruct := by
  unfold setInitial
  rw [List.map_map]
  apply List.map_congr_left
  intro v _
  simp only [Function.comp]
  split <;> rfl

theorem step_varStruct (sig : ℚ → ℚ) (sim : Simulation) :
    ((sim.step sig).vars).map varStruct = sim.vars.map varStruct := by
  show ((pushBuffers (integrateStocks _ _ (evalVariables _ _ _))).map varStruct) = _
  rw [pushBuffers_varStruct, integrateStocks_varStruct, evalVariables_varStruct]

theorem stepN_succ (sig : ℚ → ℚ) (n : ℕ) (sim : Simulation) :
    stepN sig (n + 1) sim = (stepN sig n sim).step sig := by
  induction n generalizing sim with
  | zero => rfl
  | succ k ih =>
      show stepN sig (k + 1) (sim.step sig) = _
      rw [ih]
      rfl

theorem stepN_varStruct (sig : ℚ → ℚ) (n : ℕ) (sim : Simulation) :
    ((stepN sig n sim).vars).map varStruct = sim.vars.map varStruct := by
  induction n with
  | zero => rfl
  | succ k ih => rw [stepN_succ, step_varStruct, ih]

/-! ## Step and construction lemmas -/

theorem step_vars_def (sig : ℚ → ℚ) (sim : Simulation) :
    (sim.step sig).vars =
      pushBuffers (integrateStocks sim.integration_method sim.dt
        (evalVariables sig sim.order sim.vars)) := rfl

theorem step_results_def (sig : ℚ → ℚ) (sim : Simulation) :
    (sim.step sig).results =
      sim.results.map (fun p => (p.1, p.2 ++ [valueOf (sim.step sig).vars p.1])) := rfl

theorem step_current_step (sig : ℚ → ℚ) (sim : Simulation) :
    (sim.step sig).current_step = sim.current_step + 1 := rfl

theorem step_time (sig : ℚ → ℚ) (sim : Simulation) :
    (sim.step sig).time = sim.time + sim.dt := rfl

theorem step_time_series (sig : ℚ → ℚ) (sim : Simulation) :
    (sim.step sig).time_series = sim.time_series ++ [sim.time + sim.dt] := rfl

theorem step_initial_vars (sig : ℚ → ℚ) (sim : Simulation) :
    (sim.step sig).initial_vars = sim.initial_vars := rfl

theorem step_order (sig : ℚ → ℚ) (sim : Simulation) :
    (sim.step sig).order = sim.order := rfl

theorem step_dt (sig : ℚ → ℚ) (sim : Simulation) : (sim.step sig).dt = sim.dt := rfl

theorem step_time_steps (sig : ℚ → ℚ) (sim : Simulation) :
    (sim.step sig).time_steps = sim.time_steps := rfl

theorem step_method (sig : ℚ → ℚ) (sim : Simulation) :
    (sim.step sig).integration_method = sim.integration_method := rfl

theorem stepN_fixed (sig : ℚ → ℚ) (k : ℕ) (sim : Simulation) :
    (stepN sig k sim).initial_vars = sim.initial_vars ∧
    (stepN sig k sim).order = sim.order ∧
    (stepN sig k sim).dt = sim.dt ∧
    (stepN sig k sim).time_steps = sim.time_steps ∧
    (stepN sig k sim).integration_method = sim.integration_method := by
  induction k with
  | zero => exact ⟨rfl, rfl, rfl, rfl, rfl⟩
  | succ m ih =>
      rw [stepN_succ]
      exact ⟨ih.1, ih.2.1, ih.2.2.1, ih.2.2.2.1, ih.2.2.2.2⟩

theorem stepN_current_step (sig : ℚ → ℚ) (k : ℕ) (sim : Simulation) :
    (stepN sig k sim).current_step = sim.current_step + k := by
  induction k with
  | zero => rfl
  | succ m ih =>
      rw [stepN_succ, step_current_step, ih, Nat.add_assoc]

theorem stepN_time (sig : ℚ → ℚ) (k : ℕ) (sim : Simulation) :
    (stepN sig k sim).time = sim.time + k * sim.dt := by
  induction k with
  | zero => simp [stepN]
  | succ m ih =>
      rw [stepN_succ, step_time, ih, (stepN_fixed sig m sim).2.2.1]
      push_cast
      ring

theorem mkSimulationM_ok_inv {vars : List SimVariable} {n : ℕ} {dt : ℚ}
    {im : IntegrationMethod} {sim : Simulation}
    (h : mkSimulationM vars n dt im = Except.ok sim) :
    sim.initial_vars = vars ∧ sim.vars = seedBuffers vars ∧
    topoSort vars = Except.ok sim.order ∧ sim.dt = dt ∧ sim.time_steps = n ∧
    sim.integration_method = im ∧ sim.current_step = 0 ∧ sim.time = 0 ∧
    sim.results = (seedBuffers vars).map (fun v => (v.name, [v.value])) ∧
    sim.time_series = [0] ∧ n ≠ 0 ∧ 0 < dt ∧
    (sourceNamesOk vars && thresholdsOk vars) = true := by
  unfold mkSimulationM at h
  split at h
  · exact Except.noConfusion h
  case isFalse h0 =>
  split at h
  · exact Except.noConfusion h
  case isFalse h1 =>
  split at h
  · exact Except.noConfusion h
  case isFalse h2 =>
  split at h
  case h_1 => exact Except.noConfusion h
  case h_2 ord heq =>
  cases h
  refine ⟨rfl, rfl, heq, rfl, rfl, rfl, rfl, rfl, rfl, rfl, h0, ?_, ?_⟩
  · exact lt_of_not_le h1
  · exact not_not.mp h2

theorem seedBuffers_nameHead (vars : List SimVariable) :
    (seedBuffers vars).map (fun v => (v.name, some v.value)) =
      vars.map (fun v => (v.name, some v.value)) := by
  have h := seedBuffers_nameValue vars
  have h1 : (seedBuffers vars).map (fun v => (v.name, some v.value)) =
      ((seedBuffers vars).map nameValue).map (fun p => (p.1, some p.2)) := by
    rw [List.map_map]; rfl
  have h2 : vars.map (fun v => (v.name, some v.value)) =
      (vars.map nameValue).map (fun p => (p.1, some p.2)) := by
    rw [List.map_map]; rfl
  rw [h1, h2, h]

theorem stepN_results_length {vars : List SimVariable} {n : ℕ} {dt : ℚ}
    {im : IntegrationMethod} {sim0 : Simulation}
    (h : mkSimulationM vars n dt im = Except.ok sim0) (sig : ℚ → ℚ) (k : ℕ) :
    ∀ p ∈ (stepN sig k sim0).results, p.2.length = k + 1 := by
  induction k with
  | zero =>
      intro p hp
      rw [show stepN sig 0 sim0 = sim0 from rfl, (mkSimulationM_ok_inv h).2.2.2.2.2.2.2.2.1] at hp
      obtain ⟨v, _, rfl⟩ := List.mem_map.mp hp
      rfl
  | succ m ih =>
      intro p hp
      rw [stepN_succ, step_results_def] at hp
      obtain ⟨q, hq, rfl⟩ := List.mem_map.mp hp
      simp [ih q hq]

theorem stepN_results_heads {vars : List SimVariable} {n : ℕ} {dt : ℚ}
    {im : IntegrationMethod} {sim0 : Simulation}
    (h : mkSimulationM vars n dt im = Except.ok sim0) (sig : ℚ → ℚ) (k : ℕ) :
    (stepN sig k sim0).results.map (fun p => (p.1, p.2.head?)) =
      vars.map (fun v => (v.name, some v.value)) := by
  induction k with
  | zero =>
      rw [show stepN sig 0 sim0 = sim0 from rfl,
        (mkSimulationM_ok_inv h).2.2.2.2.2.2.2.2.1, List.map_map]
      exact seedBuffers_nameHead vars
  | succ m ih =>
      rw [stepN_succ, step_results_def, List.map_map]
      rw [← ih]
      apply List.map_congr_left
      intro p hp
      simp only [Function.comp, Prod.mk.injEq, true_and]
      have hlen := stepN_results_length h sig m p hp
      cases hq : p.2 with
      | nil => rw [hq] at hlen; exact absurd hlen (by simp)
      | cons a t => simp

theorem stepN_time_series {vars : List SimVariable} {n : ℕ} {dt : ℚ}
    {im : IntegrationMethod} {sim0 : Simulation}
    (h : mkSimulationM vars n dt im = Except.ok sim0) (sig : ℚ → ℚ) (k : ℕ) :
    (stepN sig k sim0).time_series =
      (List.range (k + 1)).map (fun j : ℕ => (j : ℚ) * dt) := by
  induction k with
  | zero =>
      rw [show stepN sig 0 sim0 = sim0 from rfl,
        (mkSimulationM_ok_inv h).2.2.2.2.2.2.2.2.2.1]
      simp [show List.range 1 = [0] from rfl]
  | succ m ih =>
      rw [stepN_succ, step_time_series, ih, stepN_time,
        (mkSimulationM_ok_inv h).2.2.2.2.2.2.2.1,
        (stepN_fixed sig m sim0).2.2.1, (mkSimulationM_ok_inv h).2.2.2.1]
      have hr : List.range (m + 1 + 1) = List.range (m + 1) ++ [m + 1] :=
        List.range_succ (m + 1)
      rw [hr, List.map_append]
      simp only [List.map_cons, List.map_nil]
      congr 1
      simp only [List.cons.injEq, and_true]
      push_cast
      ring

/-! ## Claim theorems -/

/-- C7: a THRESHOLD-mode influence contributes `weight * source_value` when
the source value is at least the threshold and 0 otherwise (a hard gate); a
model containing a THRESHOLD influence with no threshold supplied fails at
construction with ConfigurationError, whatever the other configuration
inputs are. -/
theorem c7_threshold_gate_and_missing_threshold_error :
    (∀ (sig : ℚ → ℚ) (vars : List SimVariable) (e : Influence) (t : ℚ),
      e.mode = InfluenceMode.THRESHOLD → e.threshold = some t →
      contribution sig vars e =
        if t ≤ sourceValue vars e then e.weight * sourceValue vars e else 0) ∧
    (∀ (vars : List SimVariable) (n : ℕ) (dt : ℚ) (method : String)
      (v : SimVariable) (e : Influence), v ∈ vars → e ∈ v.influences →
      e.mode = InfluenceMode.THRESHOLD → e.threshold = none →
      mkSimulation vars n dt method = Except.error SimError.ConfigurationError) := by
  constructor
  · intro sig vars e t hm ht
    unfold contribution
    rw [hm, ht]
  · intro vars n dt method v e hv he hm ht
    have hbad : thresholdsOk vars ≠ true := by
      intro hok
      unfold thresholdsOk at hok
      rw [List.all_eq_true] at hok
      have h1 := hok v hv
      rw [List.all_eq_true] at h1
      have h2 := h1 e he
      rw [hm, ht] at h2
      simp at h2
    have ht : thresholdsOk vars = false := Bool.eq_false_iff.mpr hbad
    have hX : (sourceNamesOk vars && thresholdsOk vars) = false := by
      rw [ht, Bool.and_false]
    have hM : ∀ im, mkSimulationM vars n dt im =
        Except.error SimError.ConfigurationError := by
      intro im
      unfold mkSimulationM
      by_cases h0 : n = 0
      · rw [if_pos h0]
      rw [if_neg h0]
      by_cases h1 : dt ≤ 0
      · rw [if_pos h1]
      rw [if_neg h1, hX, if_pos (by simp)]
    unfold mkSimulation
    cases parseMethod method with
    | none => rfl
    | some im => exact hM im

/-- Witness for C7: the gate evaluated on a concrete THRESHOLD edge, and the
concrete model carrying a threshold-less THRESHOLD edge rejected at
construction. -/
theorem c7_threshold_witness :
    (contribution (fun x => x) singleVarModel thresholdDemoEdge =
      if (1 : ℚ) ≤ sourceValue singleVarModel thresholdDemoEdge then
        thresholdDemoEdge.weight * sourceValue singleVarModel thresholdDemoEdge
      else 0) ∧
    mkSimulation thresholdMissingModel 10 1 "euler" =
      Except.error SimError.ConfigurationError :=
  ⟨c7_threshold_gate_and_missing_threshold_error.1 (fun x => x) singleVarModel
      thresholdDemoEdge 1 rfl rfl,
    c7_threshold_gate_and_missing_threshold_error.2 thresholdMissingModel 10 1 "euler"
      ((SimVariable.create "y" 0 VariableType.AUXILIARY).add_influence_full
        (SimVariable.create "x" 1 VariableType.AUXILIARY) 1 InfluenceMode.THRESHOLD 0 none)
      ⟨"x", 1, InfluenceMode.THRESHOLD, 0, none, 1, 0, []⟩
      (by with_unfolding_all decide) (by with_unfolding_all decide) rfl rfl⟩

/-- C10: an influence added without an explicit mode or delay defaults to
LINEAR mode and delay 0, and the resulting edge's contribution is exactly
`weight * source_value` of the current step. -/
theorem c10_add_influence_defaults (v source_var : SimVariable) (w : ℚ) :
    ∃ e : Influence, (v.add_influence source_var w).influences = v.influences ++ [e] ∧
      e.source = source_var.name ∧ e.weight = w ∧ e.mode = InfluenceMode.LINEAR ∧
      e.delay = 0 ∧
      ∀ (sig : ℚ → ℚ) (vars : List SimVariable),
        contribution sig vars e = w * valueOf vars source_var.name := by
  refine ⟨⟨source_var.name, w, InfluenceMode.LINEAR, 0, none, 1, 0, []⟩,
    rfl, rfl, rfl, rfl, rfl, ?_⟩
  intro sig vars
  unfold contribution sourceValue
  simp

theorem topoAux_blocked (C : List String) (hC : C ≠ []) (fuel : ℕ) :
    ∀ (remaining : List (String × List String)) (acc : List String),
    (∀ a ∈ C, ∃ ds, (a, ds) ∈ remaining ∧ ∃ b ∈ C, b ∈ ds) →
    topoAux fuel remaining acc = Except.error SimError.CyclicDependencyError := by
  induction fuel with
  | zero =>
      intro remaining acc hinv
      obtain ⟨a, ha⟩ := List.exists_mem_of_ne_nil C hC
      obtain ⟨ds, hds, -⟩ := hinv a ha
      have hne : remaining.isEmpty = false := by
        cases remaining with
        | nil => exact absurd hds (List.not_mem_nil _)
        | cons x t => rfl
      unfold topoAux
      simp [hne]
  | succ fuel ih =>
      intro remaining acc hinv
      unfold topoAux
      cases hfind : remaining.find? (readyNode remaining) with
      | none =>
          obtain ⟨a, ha⟩ := List.exists_mem_of_ne_nil C hC
          obtain ⟨ds, hds, -⟩ := hinv a ha
          have hne : remaining.isEmpty = false := by
            cases remaining with
            | nil => exact absurd hds (List.not_mem_nil _)
            | cons x t => rfl
          simp [hne]
      | some p =>
          show topoAux fuel (remaining.erase p) (p.1 :: acc) =
            Except.error SimError.CyclicDependencyError
          apply ih
          intro a ha
          obtain ⟨ds, hds, b, hb, hbds⟩ := hinv a ha
          obtain ⟨dsb, hdsb, -⟩ := hinv b hb
          have hblock : (remaining.all (fun q => q.1 != b)) = false := by
            rw [List.all_eq_false]
            exact ⟨(b, dsb), hdsb, by simp⟩
          have hnotready : readyNode remaining (a, ds) = false := by
            unfold readyNode
            rw [List.all_eq_false]
            refine ⟨b, hbds, ?_⟩
            rw [hblock]
            exact Bool.false_ne_true
          have hpready : readyNode remaining p = true := List.find?_some hfind
          have hpne : (a, ds) ≠ p := by
            intro he
            rw [← he, hnotready] at hpready
            exact Bool.false_ne_true hpready
          exact ⟨ds, (List.mem_erase_of_ne hpne).mpr hds, b, hb, hbds⟩

theorem topoSort_blocked (vars : List SimVariable) (C : List String)
    (hC : C ≠ [])
    (hclosed : ∀ a ∈ C, ∃ ds,
      (a, ds) ∈ vars.map (fun v => (v.name, depsOf v)) ∧ ∃ b ∈ C, b ∈ ds) :
    topoSort vars = Except.error SimError.CyclicDependencyError := by
  unfold topoSort
  exact topoAux_blocked C hC vars.length _ [] hclosed

theorem topoAux_complete (fuel : ℕ) :
    ∀ (remaining : List (String × List String)) (acc : List String),
    remaining.length ≤ fuel →
    (∀ W : List (String × List String), (∀ p ∈ W, p ∈ remaining) → W ≠ [] →
      ∃ p ∈ W, ∀ d ∈ p.2, ∀ q ∈ W, q.1 ≠ d) →
    ∃ ord, topoAux fuel remaining acc = Except.ok ord := by
  induction fuel with
  | zero =>
      intro remaining acc hlen _
      have hnil : remaining = [] := List.length_eq_zero.mp (Nat.le_zero.mp hlen)
      subst hnil
      exact ⟨acc.reverse, rfl⟩
  | succ fuel ih =>
      intro remaining acc hlen hgood
      rcases remaining with - | ⟨r0, rrest⟩
      · exact ⟨acc.reverse, rfl⟩
      have hne : (r0 :: rrest) ≠ ([] : List (String × List String)) := by simp
      obtain ⟨p, hp, hpfree⟩ := hgood (r0 :: rrest) (fun q hq => hq) hne
      have hready : readyNode (r0 :: rrest) p = true := by
        unfold readyNode
        rw [List.all_eq_true]
        intro d hd
        rw [List.all_eq_true]
        intro q hq
        exact bne_iff_ne.mpr (hpfree d hd q hq)
      cases hfind : (r0 :: rrest).find? (readyNode (r0 :: rrest)) with
      | none => exact absurd hready (List.find?_eq_none.mp hfind p hp)
      | some q =>
          have hqmem : q ∈ r0 :: rrest := List.mem_of_find?_eq_some hfind
          have hlen2 : ((r0 :: rrest).erase q).length ≤ fuel := by
            rw [List.length_erase_of_mem hqmem]
            simp only [List.length_cons] at hlen ⊢
            omega
          have hgood2 : ∀ W : List (String × List String),
              (∀ x ∈ W, x ∈ (r0 :: rrest).erase q) → W ≠ [] →
              ∃ x ∈ W, ∀ d ∈ x.2, ∀ y ∈ W, y.1 ≠ d :=
            fun W hsub hWne =>
              hgood W (fun x hx => List.erase_subset q (r0 :: rrest) (hsub x hx)) hWne
          obtain ⟨ord, hord⟩ := ih ((r0 :: rrest).erase q) (q.1 :: acc)
            hlen2 hgood2
          refine ⟨ord, ?_⟩
          show topoAux (fuel + 1) (r0 :: rrest) acc = Except.ok ord
          unfold topoAux
          rw [hfind]
          exact hord

theorem mkSimulation_cyclic (vars : List SimVariable) (n : ℕ) (dt : ℚ)
    (method : String) (hn : n ≠ 0) (hdt : 0 < dt)
    (hm : (parseMethod method).isSome = true)
    (hv : (sourceNamesOk vars && thresholdsOk vars) = true)
    (htopo : topoSort vars = Except.error SimError.CyclicDependencyError) :
    mkSimulation vars n dt method =
      Except.error SimError.CyclicDependencyError := by
  unfold mkSimulation
  cases hpm : parseMethod method with
  | none => rw [hpm] at hm; exact absurd hm (by simp)
  | some im =>
      show mkSimulationM vars n dt im = Except.error SimError.CyclicDependencyError
      unfold mkSimulationM
      rw [if_neg hn, if_neg (not_le.mpr hdt), if_neg (not_not_intro hv), htopo]

theorem mkSimulation_ok_of_acyclic (vars : List SimVariable) (n : ℕ) (dt : ℚ)
    (method : String) (im : IntegrationMethod) (hn : n ≠ 0) (hdt : 0 < dt)
    (hm : parseMethod method = some im)
    (hv : (sourceNamesOk vars && thresholdsOk vars) = true)
    (hgood : ∀ W : List (String × List String),
      (∀ p ∈ W, p ∈ vars.map (fun v => (v.name, depsOf v))) → W ≠ [] →
      ∃ p ∈ W, ∀ d ∈ p.2, ∀ q ∈ W, q.1 ≠ d) :
    (mkSimulation vars n dt method).isOk = true := by
  obtain ⟨ord, hord⟩ := topoAux_complete vars.length
    (vars.map (fun v => (v.name, depsOf v))) []
    (by rw [List.length_map]) hgood
  unfold mkSimulation
  rw [hm]
  show (mkSimulationM vars n dt im).isOk = true
  unfold mkSimulationM
  rw [if_neg hn, if_neg (not_le.mpr hdt), if_neg (not_not_intro hv),
    show topoSort vars = Except.ok ord from hord]
  rfl

/-- C2: build-time cycle detection, for every model: a dependency cycle
running only through zero-delay influence edges (a cyclically adjacent list
of registry nodes) makes `topoSort` — and hence construction under otherwise
valid inputs — fail with `CyclicDependencyError` before any step executes;
conversely, whenever the zero-delay dependency graph has no blocked family
(every nonempty family of nodes has a member none of whose zero-delay
dependencies names a member — exactly the situation in which every influence
cycle carries at least one `delay > 0` edge, since delayed edges never enter
the build-time graph), construction succeeds.  Instantiated on the mutually
influencing pair: rejected with both delays zero, accepted as soon as one
edge carries any `delay ≥ 1`. -/
theorem c2_zero_delay_cycle_detection :
    (∀ (vars : List SimVariable) (c : List String), c ≠ [] →
      (∀ i, i < c.length → ∃ ds,
        (c.getD i "", ds) ∈ vars.map (fun v => (v.name, depsOf v)) ∧
        c.getD ((i + 1) % c.length) "" ∈ ds) →
      topoSort vars = Except.error SimError.CyclicDependencyError ∧
      (∀ (n : ℕ) (dt : ℚ) (method : String), n ≠ 0 → 0 < dt →
        (parseMethod method).isSome = true →
        (sourceNamesOk vars && thresholdsOk vars) = true →
        mkSimulation vars n dt method =
          Except.error SimError.CyclicDependencyError)) ∧
    (∀ (vars : List SimVariable) (n : ℕ) (dt : ℚ) (method : String)
      (im : IntegrationMethod), n ≠ 0 → 0 < dt →
      parseMethod method = some im →
      (sourceNamesOk vars && thresholdsOk vars) = true →
      (∀ W : List (String × List String),
        (∀ p ∈ W, p ∈ vars.map (fun v => (v.name, depsOf v))) → W ≠ [] →
        ∃ p ∈ W, ∀ d ∈ p.2, ∀ q ∈ W, q.1 ≠ d) →
      (mkSimulation vars n dt method).isOk = true) ∧
    mkSimulation mutualZeroDelayModel 10 1 "euler" =
      Except.error SimError.CyclicDependencyError ∧
    (∀ d : ℕ, 1 ≤ d →
      (mkSimulation (mutualDelayModel d) 10 1 "euler").isOk = true) := by
  refine ⟨?_, ?_, ?_, ?_⟩
  · intro vars c hcne hadj
    have hclosed : ∀ a ∈ c, ∃ ds,
        (a, ds) ∈ vars.map (fun v => (v.name, depsOf v)) ∧ ∃ b ∈ c, b ∈ ds := by
      intro a ha
      obtain ⟨i, hi, hie⟩ := List.getElem_of_mem ha
      obtain ⟨ds, hds, hnext⟩ := hadj i hi
      have hgi : c.getD i "" = a := by rw [List.getD_eq_getElem c "" hi, hie]
      rw [hgi] at hds
      have hlt : (i + 1) % c.length < c.length :=
        Nat.mod_lt _ (List.length_pos.mpr hcne)
      have hbmem : c.getD ((i + 1) % c.length) "" ∈ c := by
        rw [List.getD_eq_getElem c "" hlt]
        exact List.getElem_mem hlt
      exact ⟨ds, hds, _, hbmem, hnext⟩
    have htopo := topoSort_blocked vars c hcne hclosed
    exact ⟨htopo, fun n dt method hn hdt hm hv =>
      mkSimulation_cyclic vars n dt method hn hdt hm hv htopo⟩
  · exact fun vars n dt method im hn hdt hm hv hgood =>
      mkSimulation_ok_of_acyclic vars n dt method im hn hdt hm hv hgood
  · with_unfolding_all rfl
  · intro d hd
    have hd0 : (d == 0) = false := by
      simp only [beq_eq_false_iff_ne, ne_eq]
      omega
    simp [mkSimulation, mkSimulationM, parseMethod, mutualDelayModel, topoSort,
      topoAux, depsOf, readyNode, seedBuffers, sourceNamesOk, thresholdsOk,
      lookupVar, valueOf, SimVariable.create, SimVariable.add_influence,
      SimVariable.add_influence_full, SimVariable.add_influence_delay, hd0]
    rfl

/-- Witness for C2: the general cycle rejection applied to the three-variable
zero-delay ring, the general acyclic construction applied to the delayed
pair, and the concrete delayed-pair outcome. -/
theorem c2_cycle_witness :
    (topoSort threeCycleModel = Except.error SimError.CyclicDependencyError ∧
      mkSimulation threeCycleModel 10 1 "euler" =
        Except.error SimError.CyclicDependencyError) ∧
    (mkSimulation (mutualDelayModel 1) 10 1 "euler").isOk = true := by
  constructor
  · have h := c2_zero_delay_cycle_detection.1 threeCycleModel ["A", "B", "C"]
      (by decide)
      (by
        intro i hi
        have hi3 : i < 3 := by simpa using hi
        interval_cases i
        · exact ⟨["B"], by decide, by decide⟩
        · exact ⟨["C"], by decide, by decide⟩
        · exact ⟨["A"], by decide, by decide⟩)
    exact ⟨h.1, h.2 10 1 "euler" (by decide) (by with_unfolding_all decide)
      (by decide) (by with_unfolding_all decide)⟩
  · apply c2_zero_delay_cycle_detection.2.1 (mutualDelayModel 1) 10 1 "euler"
      IntegrationMethod.EULER (by decide) (by with_unfolding_all decide)
      (by decide) (by with_unfolding_all decide)
    intro W hsub hWne
    by_cases hA : (("A", ([] : List String)) ∈ W)
    · exact ⟨("A", []), hA, fun d hd q hq => absurd hd (List.not_mem_nil d)⟩
    · obtain ⟨p, hp⟩ := List.exists_mem_of_ne_nil W hWne
      have hpn : ∀ x ∈ W, x = ("B", ["A"]) := by
        intro x hx
        have hmem := hsub x hx
        have hnodes : (mutualDelayModel 1).map (fun v => (v.name, depsOf v)) =
            [("A", []), ("B", ["A"])] := by with_unfolding_all rfl
        rw [hnodes] at hmem
        rcases List.mem_cons.mp hmem with h1 | h2
        · exact absurd (h1 ▸ hx) hA
        · simpa using h2
      refine ⟨p, hp, ?_⟩
      intro d hd q hq
      rw [hpn p hp] at hd
      have hd2 : d = "A" := by simpa using hd
      rw [hpn q hq, hd2]
      decide

/-! ## Index-level registry lemmas -/

theorem getElem?_map_varStruct {xs ys : List SimVariable}
    (h : xs.map varStruct = ys.map varStruct) (j : ℕ) :
    xs[j]?.map varStruct = ys[j]?.map varStruct := by
  rw [← List.getElem?_map, ← List.getElem?_map, h]

theorem varStruct_fields {v w : SimVariable} (h : varStruct v = varStruct w) :
    v.name = w.name ∧ v.var_type = w.var_type ∧
    v.accept_negative = w.accept_negative ∧ v.inflows = w.inflows ∧
    v.outflows = w.outflows ∧
    v.influences.map influenceStruct = w.influences.map influenceStruct := by
  simp only [varStruct, Prod.mk.injEq] at h
  exact ⟨h.1, h.2.1, h.2.2.1, h.2.2.2.1, h.2.2.2.2.1, h.2.2.2.2.2⟩

theorem names_eq_of_varStruct {xs ys : List SimVariable}
    (h : xs.map varStruct = ys.map varStruct) :
    xs.map (fun u => u.name) = ys.map (fun u => u.name) := by
  have h1 : xs.map (fun u => u.name) = (xs.map varStruct).map (fun t => t.1) := by
    rw [List.map_map]
    rfl
  have h2 : ys.map (fun u => u.name) = (ys.map varStruct).map (fun t => t.1) := by
    rw [List.map_map]
    rfl
  rw [h1, h2, h]

theorem lookupVar_of_getElem? {vs : List SimVariable} {j : ℕ} {v : SimVariable}
    (h : vs[j]? = some v) (hnd : (vs.map (fun u => u.name)).Nodup) :
    lookupVar vs v.name = some v := by
  induction vs generalizing j with
  | nil => simp at h
  | cons a t ih =>
      cases j with
      | zero =>
          have ha : a = v := by simpa using h
          subst ha
          unfold lookupVar
          simp [List.find?]
      | succ m =>
          have hm : t[m]? = some v := by simpa using h
          have hvmem : v ∈ t := List.getElem?_mem hm
          rw [List.map_cons] at hnd
          have hne : (a.name == v.name) = false := by
            rw [beq_eq_false_iff_ne]
            intro he
            exact (List.nodup_cons.mp hnd).1
              (he ▸ List.mem_map_of_mem (fun u => u.name) hvmem)
          unfold lookupVar
          rw [List.find?_cons, hne]
          exact ih hm (List.nodup_cons.mp hnd).2

theorem valueOf_of_getElem? {vs : List SimVariable} {j : ℕ} {v : SimVariable}
    (h : vs[j]? = some v) (hnd : (vs.map (fun u => u.name)).Nodup) :
    valueOf vs v.name = v.value := by
  unfold valueOf
  rw [lookupVar_of_getElem? h hnd]

/-- C8: for a stock with `accept_negative = false`, an integration update is
resolved by clamping the post-update value to exactly `max 0` of the raw
update — so an update that would cross below zero yields exactly 0; after
every completed step the stock's value and every post-update recorded value
are nonnegative; and a run is a total function that always completes its
configured `time_steps` steps. -/
theorem c8_nonnegative_stock_clamping (sig : ℚ → ℚ) (vars : List SimVariable)
    (n : ℕ) (dt : ℚ) (im : IntegrationMethod) (sim0 : Simulation) (j : ℕ)
    (v : SimVariable)
    (h : mkSimulationM vars n dt im = Except.ok sim0)
    (hnd : (vars.map (fun u => u.name)).Nodup)
    (hj : sim0.vars[j]? = some v)
    (ht : v.var_type = VariableType.STOCK)
    (ha : v.accept_negative = false) :
    (∀ (m : IntegrationMethod) (dtq : ℚ) (vs : List SimVariable) (j' : ℕ)
      (u w : SimVariable),
      vs[j']? = some u → u.var_type = VariableType.STOCK →
      u.accept_negative = false → (integrateStocks m dtq vs)[j']? = some w →
      w.value = max 0 (integrateValue m dtq u (netFlow vs u))) ∧
    (∀ k w, 1 ≤ k → (stepN sig k sim0).vars[j]? = some w → 0 ≤ w.value) ∧
    (∀ k p, (stepN sig k sim0).results[j]? = some p →
      p.1 = v.name ∧ ∀ q ∈ p.2.tail, 0 ≤ q) ∧
    sim0.run sig = stepN sig n sim0 ∧ (stepN sig n sim0).current_step = n := by
  have inv := mkSimulationM_ok_inv h
  -- the exact-clamp characterisation of the integrator
  have hclamp : ∀ (m : IntegrationMethod) (dtq : ℚ) (vs : List SimVariable)
      (j' : ℕ) (u w : SimVariable),
      vs[j']? = some u → u.var_type = VariableType.STOCK →
      u.accept_negative = false → (integrateStocks m dtq vs)[j']? = some w →
      w.value = max 0 (integrateValue m dtq u (netFlow vs u)) := by
    intro m dtq vs j' u w hu htu hau hw
    unfold integrateStocks at hw
    rw [List.getElem?_map, hu] at hw
    simp only [Option.map_some', Option.some.injEq] at hw
    rw [htu] at hw
    simp only [reduceCtorEq, beq_self_eq_true, if_true] at hw
    rw [hau] at hw
    cases hw
    rfl
  -- the variable at index j keeps its structure along the run
  have hstructN : ∀ k, ∃ u, (stepN sig k sim0).vars[j]? = some u ∧
      varStruct u = varStruct v := by
    intro k
    have hs := getElem?_map_varStruct (stepN_varStruct sig k sim0) j
    rw [hj] at hs
    simp only [Option.map_some'] at hs
    obtain ⟨u, hu1, hu2⟩ := Option.map_eq_some'.mp hs
    exact ⟨u, hu1, hu2⟩
  -- nonnegativity of the stock's value after every completed step
  have hnonneg : ∀ k w, 1 ≤ k → (stepN sig k sim0).vars[j]? = some w →
      0 ≤ w.value := by
    intro k w hk hw
    obtain ⟨m, rfl⟩ : ∃ m, k = m + 1 := ⟨k - 1, by omega⟩
    rw [stepN_succ] at hw
    set sPrev := stepN sig m sim0 with hsPrev
    have hE : (evalVariables sig sPrev.order sPrev.vars).map varStruct =
        sim0.vars.map varStruct := by
      rw [evalVariables_varStruct]
      exact stepN_varStruct sig m sim0
    have hsE := getElem?_map_varStruct hE j
    rw [hj] at hsE
    simp only [Option.map_some'] at hsE
    obtain ⟨u, hu1, hu2⟩ := Option.map_eq_some'.mp hsE
    have hfields := varStruct_fields hu2
    rw [step_vars_def] at hw
    unfold pushBuffers at hw
    rw [List.getElem?_map] at hw
    unfold integrateStocks at hw
    rw [List.getElem?_map, hu1] at hw
    simp only [Option.map_some', Option.some.injEq] at hw
    rw [hfields.2.1, ht] at hw
    simp only [beq_self_eq_true, if_true] at hw
    rw [hfields.2.2.1, ha] at hw
    rw [← hw]
    exact le_max_left 0 _
  -- names are stable along the run
  have hnames : ∀ k, (stepN sig k sim0).vars.map (fun u => u.name) =
      vars.map (fun u => u.name) := by
    intro k
    have h1 := names_eq_of_varStruct (stepN_varStruct sig k sim0)
    rw [h1, inv.2.1]
    exact names_eq_of_varStruct (seedBuffers_varStruct vars)
  refine ⟨hclamp, hnonneg, ?_, ?_, ?_⟩
  · intro k
    induction k with
    | zero =>
        intro p hp
        rw [show stepN sig 0 sim0 = sim0 from rfl] at hp
        rw [inv.2.2.2.2.2.2.2.2.1, List.getElem?_map] at hp
        rw [← inv.2.1, hj] at hp
        simp only [Option.map_some', Option.some.injEq] at hp
        rw [← hp]
        exact ⟨rfl, by intro q hq; simp at hq⟩
    | succ m ih =>
        intro p hp
        rw [stepN_succ, step_results_def, List.getElem?_map] at hp
        cases hm : (stepN sig m sim0).results[j]? with
        | none => rw [hm] at hp; exact Option.noConfusion hp
        | some pm =>
            rw [hm] at hp
            simp only [Option.map_some', Option.some.injEq] at hp
            have ihm := ih pm hm
            have hmem : pm ∈ (stepN sig m sim0).results := List.getElem?_mem hm
            have hlen := stepN_results_length h sig m pm hmem
            obtain ⟨a, t, hat⟩ : ∃ a t, pm.2 = a :: t := by
              cases hpm2 : pm.2 with
              | nil => rw [hpm2] at hlen; exact absurd hlen (by simp)
              | cons a t => exact ⟨a, t, rfl⟩
            obtain ⟨u, hu1, hu2⟩ := hstructN (m + 1)
            have hufields := varStruct_fields hu2
            have huval := hnonneg (m + 1) u (by omega) hu1
            have hvameOf : valueOf (stepN sig (m + 1) sim0).vars v.name = u.value := by
              have := valueOf_of_getElem? hu1 (by rw [hnames (m + 1)]; exact hnd)
              rw [← hufields.1]
              exact this
            rw [← hp]
            refine ⟨ihm.1, ?_⟩
            intro q hq
            rw [hat] at hq
            simp only [List.cons_append, List.tail_cons] at hq
            rcases List.mem_append.mp hq with hq1 | hq2
            · exact ihm.2 q (by rw [hat]; exact hq1)
            · have hqe : q = valueOf (stepN sig (m + 1) sim0).vars pm.1 := by
                rw [stepN_succ]
                simpa using hq2
              rw [hqe, ihm.1, hvameOf]
              exact huval
  · unfold Simulation.run
    rw [inv.2.2.2.2.1]
  · rw [stepN_current_step, inv.2.2.2.2.2.2.1, Nat.zero_add]

/-- Witness for C8: the clamping facts instantiated on a concrete
non-negative stock (initial value 1) drained by a frozen flow of 5 over
three Euler steps. -/
theorem c8_nonnegative_stock_clamping_witness :
    (∀ (m : IntegrationMethod) (dtq : ℚ) (vs : List SimVariable) (j' : ℕ)
      (u w : SimVariable),
      vs[j']? = some u → u.var_type = VariableType.STOCK →
      u.accept_negative = false → (integrateStocks m dtq vs)[j']? = some w →
      w.value = max 0 (integrateValue m dtq u (netFlow vs u))) ∧
    (∀ k w, 1 ≤ k →
      (stepN (fun x => x) k
        (getOkSim (mkSimulationM clampDemoModel 3 1 IntegrationMethod.EULER))).vars[0]? =
          some w → 0 ≤ w.value) ∧
    (∀ k p, (stepN (fun x => x) k
        (getOkSim (mkSimulationM clampDemoModel 3 1 IntegrationMethod.EULER))).results[0]? =
          some p →
      p.1 = (⟨"S", 1, 1, VariableType.STOCK, false, [], ["F"], []⟩ : SimVariable).name ∧
      ∀ q ∈ p.2.tail, 0 ≤ q) ∧
    (getOkSim (mkSimulationM clampDemoModel 3 1 IntegrationMethod.EULER)).run (fun x => x) =
      stepN (fun x => x) 3 (getOkSim (mkSimulationM clampDemoModel 3 1 IntegrationMethod.EULER)) ∧
    (stepN (fun x => x) 3
      (getOkSim (mkSimulationM clampDemoModel 3 1 IntegrationMethod.EULER))).current_step = 3 :=
  c8_nonnegative_stock_clamping (fun x => x) clampDemoModel 3 1 IntegrationMethod.EULER
    (getOkSim (mkSimulationM clampDemoModel 3 1 IntegrationMethod.EULER)) 0
    ⟨"S", 1, 1, VariableType.STOCK, false, [], ["F"], []⟩
    (by with_unfolding_all rfl) (by with_unfolding_all decide)
    (by with_unfolding_all rfl) rfl rfl

/-! ## Frozen-model lemmas (no influences, no flows) -/

theorem frozenProps_transport {xs ys : List SimVariable}
    (h : xs.map (fun u => (u.value, varStruct u)) =
      ys.map (fun u => (u.value, varStruct u)))
    (hall : ∀ u ∈ ys, u.influences = [] ∧ u.inflows = [] ∧ u.outflows = [] ∧
      (u.var_type = VariableType.STOCK → u.accept_negative = false →
        0 ≤ u.value)) :
    ∀ u ∈ xs, u.influences = [] ∧ u.inflows = [] ∧ u.outflows = [] ∧
      (u.var_type = VariableType.STOCK → u.accept_negative = false →
        0 ≤ u.value) := by
  intro u hu
  have hmem : (u.value, varStruct u) ∈
      ys.map (fun u => (u.value, varStruct u)) := by
    rw [← h]
    exact List.mem_map_of_mem _ hu
  obtain ⟨w, hw, heq⟩ := List.mem_map.mp hmem
  have hval : w.value = u.value := congrArg Prod.fst heq
  have hstr : varStruct w = varStruct u := congrArg Prod.snd heq
  obtain ⟨-, hvt, hacc, hin, hout, hinfl⟩ := varStruct_fields hstr
  obtain ⟨w1, w2, w3, w4⟩ := hall w hw
  refine ⟨?_, by rw [← hin, w2], by rw [← hout, w3], ?_⟩
  · rw [w1] at hinfl
    exact List.map_eq_nil_iff.mp hinfl.symm
  · intro hu4t hu4
    rw [← hval]
    exact w4 (by rw [hvt, hu4t]) (by rw [hacc, hu4])

theorem evalVar_influences (sig : ℚ → ℚ) (vs : List SimVariable)
    (u : SimVariable) : (evalVar sig vs u).influences = u.influences := by
  unfold evalVar
  split <;> rfl

theorem evalVariables_frozen (sig : ℚ → ℚ) (ord : List String)
    (vs : List SimVariable) (hall : ∀ u ∈ vs, u.influences = []) :
    (evalVariables sig ord vs).map (fun u => (u.value, varStruct u)) =
      vs.map (fun u => (u.value, varStruct u)) := by
  induction ord generalizing vs with
  | nil => rfl
  | cons n ord ih =>
      have hpass : (vs.map (fun v =>
          if v.name == n && (v.var_type == VariableType.FLOW ||
            v.var_type == VariableType.AUXILIARY)
          then evalVar sig vs v else v)).map (fun u => (u.value, varStruct u)) =
          vs.map (fun u => (u.value, varStruct u)) := by
        rw [List.map_map]
        apply List.map_congr_left
        intro u hu
        simp only [Function.comp]
        split
        · simp [evalVar, hall u hu, varStruct]
        · rfl
      have hall' : ∀ u ∈ (vs.map (fun v =>
          if v.name == n && (v.var_type == VariableType.FLOW ||
            v.var_type == VariableType.AUXILIARY)
          then evalVar sig vs v else v)), u.influences = [] := by
        intro u hu
        obtain ⟨w, hw, rfl⟩ := List.mem_map.mp hu
        split
        · rw [evalVar_influences]
          exact hall w hw
        · exact hall w hw
      unfold evalVariables at ih ⊢
      rw [List.foldl_cons, ih _ hall', hpass]

theorem integrateStocks_frozen (m : IntegrationMethod) (dtq : ℚ)
    (vs : List SimVariable)
    (hall : ∀ u ∈ vs, u.inflows = [] ∧ u.outflows = [] ∧
      (u.var_type = VariableType.STOCK → u.accept_negative = false →
        0 ≤ u.value)) :
    (integrateStocks m dtq vs).map (fun u => (u.value, varStruct u)) =
      vs.map (fun u => (u.value, varStruct u)) := by
  unfold integrateStocks
  rw [List.map_map]
  apply List.map_congr_left
  intro u hu
  obtain ⟨h1, h2, h3⟩ := hall u hu
  simp only [Function.comp]
  split
  case isTrue hst =>
    have hst' : u.var_type = VariableType.STOCK := by simpa using hst
    have hupd : integrateValue m dtq u (netFlow vs u) = u.value := by
      have hnf : netFlow vs u = 0 := by simp [netFlow, h1, h2]
      rw [hnf]
      cases m <;> simp [integrateValue]
    rw [hupd]
    cases hacc : u.accept_negative with
    | true => simp [hacc, varStruct]
    | false =>
        have hmax : max 0 u.value = u.value := max_eq_right (h3 hst' hacc)
        simp [hacc, hmax, varStruct]
  case isFalse hst => rfl

theorem pushBuffers_frozen (vs : List SimVariable)
    (hall : ∀ u ∈ vs, u.influences = []) :
    (pushBuffers vs).map (fun u => (u.value, varStruct u)) =
      vs.map (fun u => (u.value, varStruct u)) := by
  unfold pushBuffers
  rw [List.map_map]
  apply List.map_congr_left
  intro u hu
  simp only [Function.comp]
  simp [hall u hu, varStruct]

theorem step_frozen (sig : ℚ → ℚ) (sim : Simulation)
    (hall : ∀ u ∈ sim.vars, u.influences = [] ∧ u.inflows = [] ∧
      u.outflows = [] ∧ (u.var_type = VariableType.STOCK →
        u.accept_negative = false → 0 ≤ u.value)) :
    ((sim.step sig).vars).map (fun u => (u.value, varStruct u)) =
      sim.vars.map (fun u => (u.value, varStruct u)) := by
  rw [step_vars_def]
  have h1 := evalVariables_frozen sig sim.order sim.vars
    (fun u hu => (hall u hu).1)
  have hallE := frozenProps_transport h1 hall
  have h2 := integrateStocks_frozen sim.integration_method sim.dt
    (evalVariables sig sim.order sim.vars)
    (fun u hu => ⟨(hallE u hu).2.1, (hallE u hu).2.2.1, (hallE u hu).2.2.2⟩)
  have hallI := frozenProps_transport h2 hallE
  have h3 := pushBuffers_frozen _ (fun u hu => (hallI u hu).1)
  rw [h3, h2, h1]

/-- Counterexample to C9 as stated: `negativeStockModel` has no influences
and no inflows/outflows, yet its stock (initial value −1, with
`accept_negative = false`) is clamped to 0 by the first step's integration
update, so not every variable is constant across steps. -/
theorem c9_counterexample :
    (∀ u ∈ negativeStockModel, u.influences = [] ∧ u.inflows = [] ∧
      u.outflows = []) ∧
    (mkSimulationM negativeStockModel 5 1 IntegrationMethod.EULER).isOk = true ∧
    valueOf (getOkSim
      (mkSimulationM negativeStockModel 5 1 IntegrationMethod.EULER)).vars "S" = -1 ∧
    valueOf (stepN (fun x => x) 1 (getOkSim
      (mkSimulationM negativeStockModel 5 1 IntegrationMethod.EULER))).vars "S" = 0 := by
  with_unfolding_all decide

/-- C9 (amended): a FLOW/AUXILIARY variable's evaluated value is the sum of
its influence contributions, a variable with zero influences keeps its last
value, and in a model with no influences and no inflows/outflows every
variable's value is constant across all steps — provided every stock that
refuses negative values starts nonnegative (otherwise the first step's clamp
moves it to 0, as the counterexample shows). -/
theorem c9_sum_frozen_and_constant_model (sig : ℚ → ℚ)
    (vars : List SimVariable) (n : ℕ) (dt : ℚ) (im : IntegrationMethod)
    (sim0 : Simulation)
    (h : mkSimulationM vars n dt im = Except.ok sim0)
    (hall : ∀ u ∈ vars, u.influences = [] ∧ u.inflows = [] ∧ u.outflows = [] ∧
      (u.var_type = VariableType.STOCK → u.accept_negative = false →
        0 ≤ u.value)) :
    (∀ (sg : ℚ → ℚ) (vs : List SimVariable) (u : SimVariable),
      u.influences ≠ [] →
      (evalVar sg vs u).value = (u.influences.map (contribution sg vs)).sum) ∧
    (∀ (sg : ℚ → ℚ) (vs : List SimVariable) (u : SimVariable),
      u.influences = [] → (evalVar sg vs u).value = u.value) ∧
    (∀ (k j : ℕ), ((stepN sig k sim0).vars[j]?).map (fun u : SimVariable => u.value) =
      (vars[j]?).map (fun u : SimVariable => u.value)) := by
  have hseed : (seedBuffers vars).map (fun u => (u.value, varStruct u)) =
      vars.map (fun u => (u.value, varStruct u)) := by
    unfold seedBuffers
    rw [List.map_map]
    apply List.map_congr_left
    intro u hu
    simp only [Function.comp]
    simp [(hall u hu).1, varStruct]
  have hall0 : ∀ u ∈ sim0.vars, u.influences = [] ∧ u.inflows = [] ∧
      u.outflows = [] ∧ (u.var_type = VariableType.STOCK →
        u.accept_negative = false → 0 ≤ u.value) := by
    rw [(mkSimulationM_ok_inv h).2.1]
    exact frozenProps_transport hseed hall
  have hinv : ∀ k, (stepN sig k sim0).vars.map (fun u => (u.value, varStruct u)) =
      sim0.vars.map (fun u => (u.value, varStruct u)) := by
    intro k
    induction k with
    | zero => rfl
    | succ m ih =>
        rw [stepN_succ, step_frozen sig _ (frozenProps_transport ih hall0), ih]
  refine ⟨?_, ?_, ?_⟩
  · intro sg vs u hne
    cases hl : u.influences with
    | nil => exact absurd hl hne
    | cons a t => simp [evalVar, hl]
  · intro sg vs u he
    simp [evalVar, he]
  · intro k j
    have hk : ((stepN sig k sim0).vars[j]?).map (fun u => (u.value, varStruct u)) =
        (vars[j]?).map (fun u => (u.value, varStruct u)) := by
      rw [← List.getElem?_map, ← List.getElem?_map, hinv k,
        (mkSimulationM_ok_inv h).2.1, hseed]
    cases hx : (stepN sig k sim0).vars[j]? with
    | none =>
        rw [hx] at hk
        cases hy : vars[j]? with
        | none => rfl
        | some w => rw [hy] at hk; exact Option.noConfusion hk
    | some u =>
        rw [hx] at hk
        cases hy : vars[j]? with
        | none => rw [hy] at hk; exact Option.noConfusion hk
        | some w =>
            rw [hy] at hk
            simp only [Option.map_some', Option.some.injEq] at hk ⊢
            exact congrArg Prod.fst hk

/-- Witness for C9's amended theorem: the frozen one-variable model run for
two Euler steps. -/
theorem c9_sum_frozen_witness :
    (∀ (sg : ℚ → ℚ) (vs : List SimVariable) (u : SimVariable),
      u.influences ≠ [] →
      (evalVar sg vs u).value = (u.influences.map (contribution sg vs)).sum) ∧
    (∀ (sg : ℚ → ℚ) (vs : List SimVariable) (u : SimVariable),
      u.influences = [] → (evalVar sg vs u).value = u.value) ∧
    (∀ (k j : ℕ), ((stepN (fun x => x) k
        (getOkSim (mkSimulationM singleVarModel 2 1 IntegrationMethod.EULER))).vars[j]?).map
          (fun u : SimVariable => u.value) =
      (singleVarModel[j]?).map (fun u : SimVariable => u.value)) :=
  c9_sum_frozen_and_constant_model (fun x => x) singleVarModel 2 1
    IntegrationMethod.EULER
    (getOkSim (mkSimulationM singleVarModel 2 1 IntegrationMethod.EULER))
    (by with_unfolding_all rfl) (by with_unfolding_all decide)

/-! ## Population-scenario lemmas -/

theorem popState_step (sig : ℚ → ℚ) (sim : Simulation)
    (p pp b bp d dp : ℚ)
    (hv : sim.vars = popState p pp b bp d dp)
    (ho : sim.order = popOrder)
    (hdt : sim.dt = 1)
    (hm : sim.integration_method = IntegrationMethod.EULER) :
    (sim.step sig).vars = popState (51/50 * p) p (3/100 * p) b (1/100 * p) d := by
  rw [step_vars_def, hv, ho, hdt, hm]
  simp [evalVariables, popOrder, popState, evalVar, contribution, sourceValue,
    valueOf, lookupVar, integrateStocks, integrateValue, netFlow, pushBuffers,
    List.find?]
  norm_num
  ring

theorem popSeq_succ (k : ℕ) : popSeq (k + 1) = 51/50 * popSeq k := by
  unfold popSeq
  rw [pow_succ]
  ring

theorem popSeq_pos (k : ℕ) : 0 < popSeq k := by
  unfold popSeq
  positivity

theorem popSim_inv (sig : ℚ → ℚ) (k : ℕ) :
    ∃ pp b bp d dp lb ld l1 l2,
      (stepN sig k popSim).vars = popState (popSeq k) pp b bp d dp ∧
      (stepN sig k popSim).results =
        [("Population", (List.range (k+1)).map popSeq),
         ("Births", lb), ("Deaths", ld), ("BirthRate", l1), ("DeathRate", l2)] := by
  induction k with
  | zero =>
      refine ⟨1000, 0, 0, 0, 0, [0], [0], [3/100], [1/100], ?_, ?_⟩
      · show popSim.vars = _
        have h0 : popSeq 0 = 1000 := by norm_num [popSeq]
        rw [h0]
        with_unfolding_all rfl
      · show popSim.results = _
        have h1 : (List.range 1).map popSeq = [1000] := by
          rw [show List.range 1 = [0] from rfl]
          simp [popSeq]
        rw [h1]
        with_unfolding_all rfl
  | succ m ih =>
      obtain ⟨pp, b, bp, d, dp, lb, ld, l1, l2, hv, hr⟩ := ih
      have ho : (stepN sig m popSim).order = popOrder := by
        rw [(stepN_fixed sig m popSim).2.1]
        with_unfolding_all rfl
      have hdt : (stepN sig m popSim).dt = 1 := by
        rw [(stepN_fixed sig m popSim).2.2.1]
        with_unfolding_all rfl
      have hm : (stepN sig m popSim).integration_method = IntegrationMethod.EULER := by
        rw [(stepN_fixed sig m popSim).2.2.2.2]
        with_unfolding_all rfl
      have hstep := popState_step sig (stepN sig m popSim) (popSeq m) pp b bp d dp
        hv ho hdt hm
      rw [← popSeq_succ] at hstep
      refine ⟨popSeq m, 3/100 * popSeq m, b, 1/100 * popSeq m, d,
        lb ++ [valueOf (stepN sig (m+1) popSim).vars "Births"],
        ld ++ [valueOf (stepN sig (m+1) popSim).vars "Deaths"],
        l1 ++ [valueOf (stepN sig (m+1) popSim).vars "BirthRate"],
        l2 ++ [valueOf (stepN sig (m+1) popSim).vars "DeathRate"], ?_, ?_⟩
      · rw [stepN_succ]
        exact hstep
      · rw [stepN_succ, step_results_def, hr]
        have hvp : valueOf ((stepN sig m popSim).step sig).vars "Population" =
            popSeq (m + 1) := by
          rw [hstep]
          simp [valueOf, lookupVar, popState, List.find?]
        simp only [List.map_cons, List.map_nil, hvp]
        rw [← stepN_succ]
        have hrange : (List.range (m+1+1)).map popSeq =
            (List.range (m+1)).map popSeq ++ [popSeq (m+1)] := by
          rw [List.range_succ (m+1), List.map_append]
          rfl
        rw [hrange]

theorem popSim_recordedPop (sig : ℚ → ℚ) :
    recordedSeries (stepN sig 100 popSim) "Population" =
      (List.range 101).map popSeq := by
  obtain ⟨pp, b, bp, d, dp, lb, ld, l1, l2, hv, hr⟩ := popSim_inv sig 100
  unfold recordedSeries Simulation.get_results
  rw [hr, hv]
  simp [lookupVar, popState, List.find?, List.filter]

/-- C1: in the usage guide's population scenario (stock `Population = 1000`,
flows `Births = 0.03·Population` and `Deaths = 0.01·Population` with delay 0,
added as inflow and outflow, `dt = 1`, Euler, 100 steps), after the first
step `Births = 30`, `Deaths = 10` and `Population = 1020`, and the recorded
`Population` sequence is strictly monotonically increasing over all steps —
for every sigmoid parameter, which the model never invokes. -/
theorem c1_population_scenario (sig : ℚ → ℚ) :
    valueOf ((popSim.step sig).vars) "Births" = 30 ∧
    valueOf ((popSim.step sig).vars) "Deaths" = 10 ∧
    valueOf ((popSim.step sig).vars) "Population" = 1020 ∧
    List.Chain' (fun a b : ℚ => a < b)
      (recordedSeries (popSim.run sig) "Population") := by
  have hstep := popState_step sig popSim 1000 1000 0 0 0 0
    (by with_unfolding_all rfl) (by with_unfolding_all rfl)
    (by with_unfolding_all rfl) (by with_unfolding_all rfl)
  refine ⟨?_, ?_, ?_, ?_⟩
  · rw [hstep]
    simp [valueOf, lookupVar, popState, List.find?]
    norm_num
  · rw [hstep]
    simp [valueOf, lookupVar, popState, List.find?]
    norm_num
  · rw [hstep]
    simp [valueOf, lookupVar, popState, List.find?]
    norm_num
  · have hrun : popSim.run sig = stepN sig 100 popSim := by
      show stepN sig popSim.time_steps popSim = _
      have h100 : popSim.time_steps = 100 := by with_unfolding_all rfl
      rw [h100]
    rw [hrun, popSim_recordedPop sig, List.chain'_map,
      show (101 : ℕ) = 100 + 1 from rfl, List.chain'_range_succ]
    intro m hm
    have hpos := popSeq_pos m
    rw [popSeq_succ]
    nlinarith

/-- Witness for C1: the scenario instantiated at the identity sigmoid. -/
theorem c1_population_scenario_witness :
    valueOf ((popSim.step (fun x => x)).vars) "Births" = 30 ∧
    valueOf ((popSim.step (fun x => x)).vars) "Deaths" = 10 ∧
    valueOf ((popSim.step (fun x => x)).vars) "Population" = 1020 ∧
    List.Chain' (fun a b : ℚ => a < b)
      (recordedSeries (popSim.run (fun x => x)) "Population") :=
  c1_population_scenario (fun x => x)

/-! ## Delay-buffer lemmas -/

theorem evalVariables_influences (sig : ℚ → ℚ) (ord : List String)
    (vs : List SimVariable) :
    (evalVariables sig ord vs).map (fun u => u.influences) =
      vs.map (fun u => u.influences) := by
  induction ord generalizing vs with
  | nil => rfl
  | cons n ord ih =>
      unfold evalVariables at ih ⊢
      rw [List.foldl_cons, ih, List.map_map]
      apply List.map_congr_left
      intro v _
      simp only [Function.comp]
      split
      · exact evalVar_influences ..
      · rfl

theorem integrateStocks_influences (m : IntegrationMethod) (dtq : ℚ)
    (vs : List SimVariable) :
    (integrateStocks m dtq vs).map (fun u => u.influences) =
      vs.map (fun u => u.influences) := by
  unfold integrateStocks
  rw [List.map_map]
  apply List.map_congr_left
  intro v _
  simp only [Function.comp]
  split <;> rfl

theorem step_edgeAt (sig : ℚ → ℚ) (sim : Simulation) (j i : ℕ)
    (u : SimVariable) (e : Influence)
    (hu : sim.vars[j]? = some u) (he : u.influences[i]? = some e) :
    ∃ u' e', (sim.step sig).vars[j]? = some u' ∧
      u'.influences[i]? = some e' ∧ e'.source = e.source ∧
      e'.delay = e.delay ∧
      e'.buffer = (if e.delay = 0 then e.buffer
        else e.buffer.tail ++ [valueOf (sim.step sig).vars e.source]) := by
  have h12 : (integrateStocks sim.integration_method sim.dt
      (evalVariables sig sim.order sim.vars)).map (fun u => u.influences) =
      sim.vars.map (fun u => u.influences) := by
    rw [integrateStocks_influences, evalVariables_influences]
  have hj2 : (integrateStocks sim.integration_method sim.dt
      (evalVariables sig sim.order sim.vars))[j]?.map (fun u => u.influences) =
      some u.influences := by
    rw [← List.getElem?_map, h12, List.getElem?_map, hu]
    rfl
  obtain ⟨u2, hu2, hinfl2⟩ := Option.map_eq_some'.mp hj2
  have hvals : ∀ s, valueOf (sim.step sig).vars s =
      valueOf (integrateStocks sim.integration_method sim.dt
        (evalVariables sig sim.order sim.vars)) s := by
    intro s
    rw [step_vars_def]
    exact valueOf_pushBuffers ..
  have hu' : (sim.step sig).vars[j]? = some
      { u2 with influences := u2.influences.map (fun e1 =>
        if e1.delay == 0 then e1
        else { e1 with buffer := e1.buffer.tail ++
          [valueOf (integrateStocks sim.integration_method sim.dt
            (evalVariables sig sim.order sim.vars)) e1.source] }) } := by
    rw [step_vars_def]
    unfold pushBuffers
    rw [List.getElem?_map, hu2]
    rfl
  have he' : ({ u2 with influences := u2.influences.map (fun e1 =>
      if e1.delay == 0 then e1
      else { e1 with buffer := e1.buffer.tail ++
        [valueOf (integrateStocks sim.integration_method sim.dt
          (evalVariables sig sim.order sim.vars)) e1.source] }) } :
        SimVariable).influences[i]? = some
      (if e.delay == 0 then e
       else { e with buffer := e.buffer.tail ++
        [valueOf (integrateStocks sim.integration_method sim.dt
          (evalVariables sig sim.order sim.vars)) e.source] }) := by
    simp only
    rw [List.getElem?_map, hinfl2, he]
    rfl
  refine ⟨_, _, hu', he', ?_, ?_, ?_⟩
  · split <;> rfl
  · split <;> rfl
  · split
    case isTrue hdz =>
        rw [if_pos (by simpa using hdz)]
    case isFalse hdz =>
        rw [if_neg (by simpa using hdz), hvals e.source]

theorem shift_window (f : ℕ → ℚ) (m dm : ℕ) :
    ((List.range (dm+1)).map (fun t => f (m + 1 + t - (dm+1)))).tail ++
      [f (m + 1)] =
    (List.range (dm+1)).map (fun t => f (m + 1 + 1 + t - (dm+1))) := by
  nth_rewrite 1 [List.range_succ_eq_map]
  rw [List.range_succ, List.map_append, List.map_cons, List.map_map,
    List.tail_cons]
  simp only [List.map_cons, List.map_nil]
  congr 1
  · apply List.map_congr_left
    intro t ht
    simp only [Function.comp]
    congr 1
    omega
  · congr 2
    omega

/-- C3: a `delay = d > 0` influence edge owns a bounded FIFO of length `d`,
seeded at construction with the source's initial value replicated; after `k`
steps the buffer holds the source's values at steps `k+1-d … k`
(seed-truncated), so the value the target reads during step `k+1` is the
source's value from `d` steps earlier — the seeded initial value while fewer
than `d` steps have elapsed, never undefined state. -/
theorem c3_delay_buffer_fifo (sig : ℚ → ℚ) (vars : List SimVariable) (n : ℕ)
    (dt : ℚ) (im : IntegrationMethod) (sim0 : Simulation) (j i d : ℕ)
    (u : SimVariable) (e : Influence)
    (h : mkSimulationM vars n dt im = Except.ok sim0)
    (hu : sim0.vars[j]? = some u)
    (he : u.influences[i]? = some e)
    (hd : e.delay = d) (hdpos : 0 < d) :
    e.buffer = List.replicate d (valueOf sim0.vars e.source) ∧
    (∀ k : ℕ, ∃ u' e', (stepN sig k sim0).vars[j]? = some u' ∧
      u'.influences[i]? = some e' ∧ e'.source = e.source ∧ e'.delay = d ∧
      e'.buffer = (List.range d).map (fun t =>
        valueOf (stepN sig (k + 1 + t - d) sim0).vars e.source)) ∧
    (∀ k : ℕ, delayedRead (stepN sig k sim0).vars j i =
      some (valueOf (stepN sig (k + 1 - d) sim0).vars e.source)) := by
  have inv := mkSimulationM_ok_inv h
  have hseed : e.buffer = List.replicate d (valueOf sim0.vars e.source) := by
    have hu0 := hu
    rw [inv.2.1] at hu0
    unfold seedBuffers at hu0
    rw [List.getElem?_map] at hu0
    obtain ⟨w, hw, hwu⟩ := Option.map_eq_some'.mp hu0
    have hinfl : u.influences = w.influences.map (fun e0 =>
        if e0.delay == 0 then e0
        else { e0 with buffer :=
          List.replicate e0.delay (valueOf vars e0.source) }) := by
      rw [← hwu]
    rw [hinfl, List.getElem?_map] at he
    obtain ⟨e0, he0, he0e⟩ := Option.map_eq_some'.mp he
    by_cases hz : (e0.delay == 0) = true
    · rw [if_pos hz] at he0e
      have : e.delay = 0 := by
        rw [← he0e]
        simpa using hz
      omega
    · rw [if_neg hz] at he0e
      have hdel0 : e0.delay = d := by
        rw [← hd, ← he0e]
      have hsrc0 : e.source = e0.source := by
        rw [← he0e]
      have hbuf0 : e.buffer =
          List.replicate e0.delay (valueOf vars e0.source) := by
        rw [← he0e]
      rw [hbuf0, hdel0, ← hsrc0, inv.2.1, valueOf_seedBuffers]
  have hbufinv : ∀ k : ℕ, ∃ u' e', (stepN sig k sim0).vars[j]? = some u' ∧
      u'.influences[i]? = some e' ∧ e'.source = e.source ∧ e'.delay = d ∧
      e'.buffer = (List.range d).map (fun t =>
        valueOf (stepN sig (k + 1 + t - d) sim0).vars e.source) := by
    intro k
    induction k with
    | zero =>
        refine ⟨u, e, hu, he, rfl, hd, ?_⟩
        rw [hseed]
        have hcongr : ∀ t ∈ List.range d,
            valueOf (stepN sig (0 + 1 + t - d) sim0).vars e.source =
            valueOf sim0.vars e.source := by
          intro t ht
          have htd : t < d := List.mem_range.mp ht
          have hz : 0 + 1 + t - d = 0 := by omega
          rw [hz]
          rfl
        rw [List.map_congr_left hcongr]
        rw [List.map_const', List.length_range]
    | succ m ih =>
        obtain ⟨u', e', hu', he', hsrc, hdel, hbufm⟩ := ih
        obtain ⟨u'', e'', hu'', he'', hsrc2, hdel2, hbuf2⟩ :=
          step_edgeAt sig (stepN sig m sim0) j i u' e' hu' he'
        rw [← stepN_succ] at hu'' hbuf2
        refine ⟨u'', e'', hu'', he'', by rw [hsrc2, hsrc],
          by rw [hdel2, hdel], ?_⟩
        rw [hbuf2, if_neg (by omega : ¬ e'.delay = 0), hbufm, hsrc]
        obtain ⟨dm, rfl⟩ : ∃ dm, d = dm + 1 := ⟨d - 1, by omega⟩
        exact shift_window
          (fun idx => valueOf (stepN sig idx sim0).vars e.source) m dm
  refine ⟨hseed, hbufinv, ?_⟩
  intro k
  obtain ⟨u', e', hu', he', hsrc, hdel, hbufk⟩ := hbufinv k
  unfold delayedRead bufferAt
  rw [hu']
  simp only [he', hbufk]
  obtain ⟨dm, rfl⟩ : ∃ dm, d = dm + 1 := ⟨d - 1, by omega⟩
  rw [List.range_succ_eq_map, List.map_cons]
  simp only [List.headD_cons, Option.some.injEq]

/-- Witness for C3: the FIFO facts instantiated on the concrete `delay = 3`
scenario (source changing from 1 to 5 at the first step). -/
theorem c3_delay_buffer_fifo_witness :
    delayEdge.buffer = List.replicate 3 (valueOf delaySim.vars delayEdge.source) ∧
    (∀ k : ℕ, ∃ u' e', (stepN (fun x => x) k delaySim).vars[2]? = some u' ∧
      u'.influences[0]? = some e' ∧ e'.source = delayEdge.source ∧
      e'.delay = 3 ∧
      e'.buffer = (List.range 3).map (fun t =>
        valueOf (stepN (fun x => x) (k + 1 + t - 3) delaySim).vars
          delayEdge.source)) ∧
    (∀ k : ℕ, delayedRead (stepN (fun x => x) k delaySim).vars 2 0 =
      some (valueOf (stepN (fun x => x) (k + 1 - 3) delaySim).vars
        delayEdge.source)) :=
  c3_delay_buffer_fifo (fun x => x) delayDemoModel 6 1 IntegrationMethod.EULER
    delaySim 2 0 3 delayTargetVar delayEdge
    (by with_unfolding_all rfl) (by with_unfolding_all rfl)
    (by with_unfolding_all rfl) rfl (by decide)

/-! ## Sensitivity-analysis lemmas -/

theorem list_all_congr {α : Type} {f g : α → Bool} {xs : List α}
    (hfg : ∀ x ∈ xs, f x = g x) : xs.all f = xs.all g := by
  induction xs with
  | nil => rfl
  | cons y ys ih =>
      have hhead := hfg y (List.mem_cons_self y ys)
      have htail : ys.all f = ys.all g :=
        ih fun z hz => hfg z (List.mem_cons_of_mem y hz)
      simp only [List.all_cons, hhead, htail]

theorem lookupVar_setInitial_isSome (vars : List SimVariable) (v : String)
    (w : ℚ) (s : String) :
    (lookupVar (setInitial vars v w) s).isSome = (lookupVar vars s).isSome := by
  unfold setInitial
  rw [lookupVar_map]
  · exact Option.isSome_map ..
  · intro u
    split <;> rfl

theorem sourceNamesOk_setInitial (vars : List SimVariable) (v : String) (w : ℚ) :
    sourceNamesOk (setInitial vars v w) = sourceNamesOk vars := by
  unfold sourceNamesOk
  simp only [lookupVar_setInitial_isSome]
  show (List.map _ vars).all _ = _
  rw [List.all_map]
  apply list_all_congr
  intro u _
  simp only [Function.comp]
  split <;> rfl

theorem thresholdsOk_setInitial (vars : List SimVariable) (v : String) (w : ℚ) :
    thresholdsOk (setInitial vars v w) = thresholdsOk vars := by
  unfold thresholdsOk setInitial
  rw [List.all_map]
  apply list_all_congr
  intro u _
  simp only [Function.comp]
  split <;> rfl

theorem topoSort_setInitial (vars : List SimVariable) (v : String) (w : ℚ) :
    topoSort (setInitial vars v w) = topoSort vars := by
  unfold topoSort
  have hlen : (setInitial vars v w).length = vars.length := by
    unfold setInitial
    exact List.length_map ..
  have hnodes : (setInitial vars v w).map (fun u => (u.name, depsOf u)) =
      vars.map (fun u => (u.name, depsOf u)) := by
    unfold setInitial
    rw [List.map_map]
    apply List.map_congr_left
    intro u _
    simp only [Function.comp]
    split
    · show (u.name, depsOf { u with value := w, previous_value := w }) = _
      unfold depsOf
      rfl
    · rfl
  rw [hlen, hnodes]

theorem mkSimulationM_setInitial_ok {vars : List SimVariable} {n : ℕ} {dt : ℚ}
    {im : IntegrationMethod} {sim0 : Simulation}
    (h : mkSimulationM vars n dt im = Except.ok sim0) (v : String) (w : ℚ) :
    mkSimulationM (setInitial vars v w) n dt im = Except.ok
      { initial_vars := setInitial vars v w
        vars := seedBuffers (setInitial vars v w)
        order := sim0.order
        dt := dt
        time_steps := n
        integration_method := im
        current_step := 0
        time := 0
        results := (seedBuffers (setInitial vars v w)).map
          (fun u => (u.name, [u.value]))
        time_series := [0] } := by
  have inv := mkSimulationM_ok_inv h
  unfold mkSimulationM
  rw [if_neg inv.2.2.2.2.2.2.2.2.2.2.1,
    if_neg (not_le.mpr inv.2.2.2.2.2.2.2.2.2.2.2.1)]
  rw [sourceNamesOk_setInitial, thresholdsOk_setInitial,
    inv.2.2.2.2.2.2.2.2.2.2.2.2]
  rw [if_neg (by simp)]
  rw [topoSort_setInitial, inv.2.2.1]

theorem lookupVar_varStruct {xs ys : List SimVariable}
    (h : xs.map varStruct = ys.map varStruct) (v : String) :
    (lookupVar xs v).map varStruct = (lookupVar ys v).map varStruct := by
  induction xs generalizing ys with
  | nil =>
      cases ys with
      | nil => rfl
      | cons b t => simp at h
  | cons a s ih =>
      cases ys with
      | nil => simp at h
      | cons b t =>
          simp only [List.map_cons, List.cons.injEq] at h
          have hn : a.name = b.name := (varStruct_fields h.1).1
          unfold lookupVar
          rw [List.find?_cons, List.find?_cons, hn]
          cases hb : (b.name == v) with
          | true => simpa using h.1
          | false => exact ih h.2

theorem find?_filter_head {R : List (String × List ℚ)} {vs : List SimVariable}
    (pred : String × List ℚ → Bool)
    (hproj : R.map (fun p => (p.1, p.2.head?)) =
      vs.map (fun u => (u.name, some u.value)))
    {v : String} {u0 : SimVariable}
    (hfind : vs.find? (fun u => u.name == v) = some u0)
    (hpred : ∀ r ∈ R, (r.1 == v) = true → pred r = true) :
    ∃ p, (R.filter pred).find? (fun r => r.1 == v) = some p ∧
      p.1 = u0.name ∧ p.2.head? = some u0.value := by
  induction R generalizing vs with
  | nil =>
      cases vs with
      | nil => simp at hfind
      | cons b t => simp at hproj
  | cons r R ih =>
      cases vs with
      | nil => simp at hproj
      | cons u vs' =>
          simp only [List.map_cons, List.cons.injEq] at hproj
          have hr1 : r.1 = u.name := congrArg Prod.fst hproj.1
          have hr2 : r.2.head? = some u.value := congrArg Prod.snd hproj.1
          rw [List.find?_cons] at hfind
          cases hv1 : (r.1 == v) with
          | true =>
              have hun : (u.name == v) = true := by rw [← hr1]; exact hv1
              rw [hun] at hfind
              have hu0 : u = u0 := by simpa using hfind
              have hpr : pred r = true :=
                hpred r (List.mem_cons_self r R) hv1
              rw [List.filter_cons, if_pos hpr, List.find?_cons, hv1]
              exact ⟨r, rfl, by rw [hr1, hu0], by rw [hr2, hu0]⟩
          | false =>
              have hun : (u.name == v) = false := by rw [← hr1]; exact hv1
              rw [hun] at hfind
              have hrec := ih hproj.2 hfind
                (fun q hq hqv => hpred q (List.mem_cons_of_mem r hq) hqv)
              rw [List.filter_cons]
              cases hpr : pred r with
              | true =>
                  rw [if_pos rfl, List.find?_cons, hv1]
                  exact hrec
              | false =>
                  rw [if_neg (by simp)]
                  exact hrec

/-- C4: after each completed step every per-variable result sequence has
length `current_step + 1` and the elapsed time has increased monotonically by
`dt` (reaching `current_step * dt`); `run()` executes `step()` exactly
`time_steps` times, after which `get_results()` returns a sequence for every
non-constant variable of the model (coverage: under the registry's
unique-name invariant each non-constant variable has an entry keyed by its
name, of length `time_steps + 1`, whose first element is that variable's
step-0 initial value; conversely every returned entry is such a sequence),
and `get_time_series()` returns `[0, dt, 2dt, …]`. -/
theorem c4_run_and_results_invariants (sig : ℚ → ℚ) (vars : List SimVariable)
    (n : ℕ) (dt : ℚ) (im : IntegrationMethod) (sim0 : Simulation)
    (h : mkSimulationM vars n dt im = Except.ok sim0)
    (hnd : (vars.map (fun u => u.name)).Nodup) :
    (∀ k, (stepN sig k sim0).current_step = k ∧
      (∀ p ∈ (stepN sig k sim0).results,
        p.2.length = (stepN sig k sim0).current_step + 1) ∧
      (stepN sig k sim0).time = k * dt) ∧
    sim0.run sig = stepN sig n sim0 ∧
    (∀ p ∈ (sim0.run sig).get_results, p.2.length = n + 1) ∧
    (∀ p ∈ (sim0.run sig).get_results,
      ∃ v ∈ vars, v.name = p.1 ∧ p.2.head? = some v.value) ∧
    (∀ u ∈ vars, u.var_type ≠ VariableType.CONSTANT →
      ∃ p ∈ (sim0.run sig).get_results,
        p.1 = u.name ∧ p.2.length = n + 1 ∧ p.2.head? = some u.value) ∧
    (sim0.run sig).get_time_series =
      (List.range (n + 1)).map (fun j : ℕ => (j : ℚ) * dt) := by
  have inv := mkSimulationM_ok_inv h
  have hrun : sim0.run sig = stepN sig n sim0 := by
    unfold Simulation.run
    rw [inv.2.2.2.2.1]
  have hmem : ∀ p ∈ (sim0.run sig).get_results, p ∈ (stepN sig n sim0).results := by
    intro p hp
    unfold Simulation.get_results at hp
    rw [hrun] at hp
    exact (List.mem_filter.mp hp).1
  refine ⟨?_, hrun, ?_, ?_, ?_, ?_⟩
  · intro k
    have hc : (stepN sig k sim0).current_step = k := by
      rw [stepN_current_step, inv.2.2.2.2.2.2.1, Nat.zero_add]
    refine ⟨hc, ?_, ?_⟩
    · rw [hc]
      exact stepN_results_length h sig k
    · rw [stepN_time, inv.2.2.2.2.2.2.2.1, inv.2.2.2.1]
      ring
  · intro p hp
    exact stepN_results_length h sig n p (hmem p hp)
  · intro p hp
    have hproj := List.mem_map_of_mem (fun p => (p.1, p.2.head?)) (hmem p hp)
    rw [stepN_results_heads h sig n] at hproj
    obtain ⟨v, hv, heq⟩ := List.mem_map.mp hproj
    exact ⟨v, hv, congrArg Prod.fst heq, (congrArg Prod.snd heq).symm⟩
  · intro u hu hty
    obtain ⟨j, hjlt, hje⟩ := List.getElem_of_mem hu
    have hj : vars[j]? = some u := by
      rw [List.getElem?_eq_getElem hjlt, hje]
    have hfind : lookupVar vars u.name = some u := lookupVar_of_getElem? hj hnd
    have hfind2 : vars.find? (fun x => x.name == u.name) = some u := hfind
    have hproj := stepN_results_heads h sig n
    have hpred : ∀ r ∈ (stepN sig n sim0).results, (r.1 == u.name) = true →
        (match lookupVar (stepN sig n sim0).vars r.1 with
          | some x => x.var_type != VariableType.CONSTANT
          | none => false) = true := by
      intro r _ hrv
      have hrv2 : r.1 = u.name := eq_of_beq hrv
      have hvs : (stepN sig n sim0).vars.map varStruct =
          vars.map varStruct := by
        rw [stepN_varStruct, inv.2.1, seedBuffers_varStruct]
      have hlk := lookupVar_varStruct hvs u.name
      rw [hfind] at hlk
      simp only [Option.map_some'] at hlk
      obtain ⟨x, hx1, hx2⟩ := Option.map_eq_some'.mp hlk
      have hxty : x.var_type = u.var_type := (varStruct_fields hx2).2.1
      rw [hrv2, hx1]
      have hne : (x.var_type == VariableType.CONSTANT) = false :=
        beq_eq_false_iff_ne.mpr (by rw [hxty]; exact hty)
      simp [bne, hne]
    have hmain := find?_filter_head
      (fun r => match lookupVar (stepN sig n sim0).vars r.1 with
        | some x => x.var_type != VariableType.CONSTANT
        | none => false)
      hproj hfind2 hpred
    obtain ⟨p, hp1, hp2, hp3⟩ := hmain
    have hpmem : p ∈ (stepN sig n sim0).results.filter
        (fun r => match lookupVar (stepN sig n sim0).vars r.1 with
          | some x => x.var_type != VariableType.CONSTANT
          | none => false) := List.mem_of_find?_eq_some hp1
    have hpmem2 : p ∈ (sim0.run sig).get_results := by
      unfold Simulation.get_results
      rw [hrun]
      exact hpmem
    have hplen : p.2.length = n + 1 :=
      stepN_results_length h sig n p (List.mem_filter.mp hpmem).1
    exact ⟨p, hpmem2, hp2, hplen, hp3⟩
  · show (sim0.run sig).time_series = _
    rw [hrun]
    exact stepN_time_series h sig n

/-- Witness for C4: the invariants instantiated on a concrete one-variable
simulation of two Euler steps at `dt = 1`. -/
theorem c4_run_and_results_invariants_witness :
    (∀ k, (stepN (fun x => x) k
        (getOkSim (mkSimulationM singleVarModel 2 1 IntegrationMethod.EULER))).current_step = k ∧
      (∀ p ∈ (stepN (fun x => x) k
          (getOkSim (mkSimulationM singleVarModel 2 1 IntegrationMethod.EULER))).results,
        p.2.length = (stepN (fun x => x) k
          (getOkSim (mkSimulationM singleVarModel 2 1 IntegrationMethod.EULER))).current_step + 1) ∧
      (stepN (fun x => x) k
        (getOkSim (mkSimulationM singleVarModel 2 1 IntegrationMethod.EULER))).time = k * 1) ∧
    (getOkSim (mkSimulationM singleVarModel 2 1 IntegrationMethod.EULER)).run (fun x => x) =
      stepN (fun x => x) 2 (getOkSim (mkSimulationM singleVarModel 2 1 IntegrationMethod.EULER)) ∧
    (∀ p ∈ ((getOkSim (mkSimulationM singleVarModel 2 1 IntegrationMethod.EULER)).run
        (fun x => x)).get_results, p.2.length = 2 + 1) ∧
    (∀ p ∈ ((getOkSim (mkSimulationM singleVarModel 2 1 IntegrationMethod.EULER)).run
        (fun x => x)).get_results,
      ∃ v ∈ singleVarModel, v.name = p.1 ∧ p.2.head? = some v.value) ∧
    (∀ u ∈ singleVarModel, u.var_type ≠ VariableType.CONSTANT →
      ∃ p ∈ ((getOkSim (mkSimulationM singleVarModel 2 1 IntegrationMethod.EULER)).run
          (fun x => x)).get_results,
        p.1 = u.name ∧ p.2.length = 2 + 1 ∧ p.2.head? = some u.value) ∧
    ((getOkSim (mkSimulationM singleVarModel 2 1 IntegrationMethod.EULER)).run
        (fun x => x)).get_time_series =
      (List.range (2 + 1)).map (fun j : ℕ => (j : ℚ) * 1) :=
  c4_run_and_results_invariants (fun x => x) singleVarModel 2 1 IntegrationMethod.EULER
    (getOkSim (mkSimulationM singleVarModel 2 1 IntegrationMethod.EULER))
    (by with_unfolding_all rfl) (by decide)

/-- C5: the sensitivity sweep samples
`value_i = low + i*(high-low)/(steps-1)` for `i < steps` when `steps > 1`
and just `low` when `steps = 1`; with range `(0.5, 0.9)` and `steps = 20`
the returned mapping has exactly 20 keys in sweep order, first key 0.5 and
last key 0.9, and each run's first recorded value for the swept variable
equals its sampled key. -/
theorem c5_sensitivity_sampling (sig : ℚ → ℚ) (vars : List SimVariable)
    (n : ℕ) (dt : ℚ) (im : IntegrationMethod) (sim0 : Simulation)
    (v : String) (u0 : SimVariable)
    (mp : List (ℚ × List (String × List ℚ)))
    (h : mkSimulationM vars n dt im = Except.ok sim0)
    (hv : lookupVar vars v = some u0)
    (hty : u0.var_type ≠ VariableType.CONSTANT)
    (hmp : sim0.sensitivity_analysis sig v (1/2) (9/10) 20 = Except.ok mp) :
    (∀ (low high : ℚ) (steps : ℕ), 1 < steps →
      samplePoints low high steps = (List.range steps).map
        (fun idx : ℕ => low + (idx : ℚ) * (high - low) / ((steps : ℚ) - 1))) ∧
    (∀ low high : ℚ, samplePoints low high 1 = [low]) ∧
    mp.map (fun q => q.1) = samplePoints (1/2) (9/10) 20 ∧
    mp.length = 20 ∧
    (mp.map (fun q => q.1)).head? = some (1/2) ∧
    (mp.map (fun q => q.1)).getLast? = some (9/10) ∧
    (∀ q ∈ mp, ∃ p, q.2.find? (fun r => r.1 == v) = some p ∧
      p.2.head? = some q.1) := by
  have inv := mkSimulationM_ok_inv h
  unfold Simulation.sensitivity_analysis at hmp
  rw [if_neg (by norm_num), if_neg (by norm_num)] at hmp
  have hmp' : (samplePoints (1/2) (9/10) 20).map (fun w =>
      (w, standaloneResults sig sim0.initial_vars v w sim0.time_steps
        sim0.dt sim0.integration_method)) = mp := by
    injection hmp
  have hsp : samplePoints (1/2 : ℚ) (9/10) 20 = (List.range 20).map
      (fun idx : ℕ => 1/2 + (idx : ℚ) * (9/10 - 1/2) / (((20 : ℕ) : ℚ) - 1)) := by
    unfold samplePoints
    rw [if_neg (by norm_num)]
  refine ⟨?_, ?_, ?_, ?_⟩
  · intro low high steps hsteps
    unfold samplePoints
    rw [if_neg (by omega)]
  · intro low high
    unfold samplePoints
    rw [if_pos (by norm_num)]
  · rw [← hmp', List.map_map]
    exact List.map_id _
  refine ⟨?_, ?_, ?_, ?_⟩
  · rw [← hmp', List.length_map, hsp, List.length_map, List.length_range]
  · rw [← hmp', List.map_map]
    have hkeys : ((samplePoints (1/2 : ℚ) (9/10) 20).map ((fun q :
        ℚ × List (String × List ℚ) => q.1) ∘ (fun w =>
        (w, standaloneResults sig sim0.initial_vars v w sim0.time_steps
          sim0.dt sim0.integration_method)))) =
        samplePoints (1/2) (9/10) 20 := List.map_id _
    rw [hkeys, hsp, show (20 : ℕ) = 19 + 1 from rfl,
      List.range_succ_eq_map, List.map_cons, List.head?_cons]
    norm_num
  · rw [← hmp', List.map_map]
    have hkeys : ((samplePoints (1/2 : ℚ) (9/10) 20).map ((fun q :
        ℚ × List (String × List ℚ) => q.1) ∘ (fun w =>
        (w, standaloneResults sig sim0.initial_vars v w sim0.time_steps
          sim0.dt sim0.integration_method)))) =
        samplePoints (1/2) (9/10) 20 := List.map_id _
    rw [hkeys, hsp, show (20 : ℕ) = 19 + 1 from rfl, List.range_succ,
      List.map_append, List.map_cons, List.map_nil, List.getLast?_concat]
    norm_num
  · intro q hq
    rw [← hmp'] at hq
    obtain ⟨w, hw, rfl⟩ := List.mem_map.mp hq
    simp only
    rw [inv.1, inv.2.2.2.1, inv.2.2.2.2.1, inv.2.2.2.2.2.1]
    have hok := mkSimulationM_setInitial_ok h v w
    unfold standaloneResults
    rw [hok]
    have hname : (u0.name == v) = true := by
      have hv' : vars.find? (fun u => u.name == v) = some u0 := hv
      simpa using List.find?_some hv'
    have hfind : (setInitial vars v w).find? (fun u => u.name == v) =
        some { u0 with value := w, previous_value := w } := by
      have hl : lookupVar (setInitial vars v w) v =
          (lookupVar vars v).map (fun u =>
            if u.name == v then { u with value := w, previous_value := w }
            else u) := by
        unfold setInitial
        apply lookupVar_map
        intro u
        split <;> rfl
      have hv2 : vars.find? (fun u => u.name == v) = some u0 := hv
      unfold lookupVar at hl
      rw [hl, hv2]
      simp only [Option.map_some', hname, if_pos]
    set simw : Simulation :=
      { initial_vars := setInitial vars v w
        vars := seedBuffers (setInitial vars v w)
        order := sim0.order
        dt := dt
        time_steps := n
        integration_method := im
        current_step := 0
        time := 0
        results := (seedBuffers (setInitial vars v w)).map
          (fun u => (u.name, [u.value]))
        time_series := [0] } with hsimw
    have hrunw : simw.run sig = stepN sig n simw := by
      unfold Simulation.run
      rw [hsimw]
    have hproj := stepN_results_heads hok sig n
    have hpred : ∀ r ∈ (stepN sig n simw).results, (r.1 == v) = true →
        (match lookupVar (stepN sig n simw).vars r.1 with
          | some x => x.var_type != VariableType.CONSTANT
          | none => false) = true := by
      intro r _ hrv
      have hrv' : r.1 = v := eq_of_beq hrv
      have hvs : (stepN sig n simw).vars.map varStruct =
          vars.map varStruct := by
        rw [stepN_varStruct, hsimw]
        show (seedBuffers (setInitial vars v w)).map varStruct = _
        rw [seedBuffers_varStruct, setInitial_varStruct]
      have hlk := lookupVar_varStruct hvs v
      rw [hv] at hlk
      simp only [Option.map_some'] at hlk
      obtain ⟨x, hx1, hx2⟩ := Option.map_eq_some'.mp hlk
      have hxty : x.var_type = u0.var_type := (varStruct_fields hx2).2.1
      rw [hrv', hx1]
      have hne : (x.var_type == VariableType.CONSTANT) = false :=
        beq_eq_false_iff_ne.mpr (by rw [hxty]; exact hty)
      simp [bne, hne]
    have hmain := find?_filter_head
      (fun r => match lookupVar (stepN sig n simw).vars r.1 with
        | some x => x.var_type != VariableType.CONSTANT
        | none => false)
      hproj hfind hpred
    obtain ⟨p, hp1, hp2, hp3⟩ := hmain
    refine ⟨p, ?_, by rw [hp3]⟩
    show ((simw.run sig).get_results).find? (fun r => r.1 == v) = some p
    rw [hrunw]
    unfold Simulation.get_results
    exact hp1

/-- Witness for C5: the sweep facts instantiated on a one-variable
one-step simulation, sweeping `x` over `(0.5, 0.9)` in 20 steps. -/
theorem c5_sensitivity_sampling_witness :
    (∀ (low high : ℚ) (steps : ℕ), 1 < steps →
      samplePoints low high steps = (List.range steps).map
        (fun idx : ℕ => low + (idx : ℚ) * (high - low) / ((steps : ℚ) - 1))) ∧
    (∀ low high : ℚ, samplePoints low high 1 = [low]) ∧
    (getOkResults ((getOkSim (mkSimulationM singleVarModel 1 1
        IntegrationMethod.EULER)).sensitivity_analysis (fun x => x) "x"
        (1/2) (9/10) 20)).map (fun q => q.1) = samplePoints (1/2) (9/10) 20 ∧
    (getOkResults ((getOkSim (mkSimulationM singleVarModel 1 1
        IntegrationMethod.EULER)).sensitivity_analysis (fun x => x) "x"
        (1/2) (9/10) 20)).length = 20 ∧
    ((getOkResults ((getOkSim (mkSimulationM singleVarModel 1 1
        IntegrationMethod.EULER)).sensitivity_analysis (fun x => x) "x"
        (1/2) (9/10) 20)).map (fun q => q.1)).head? = some (1/2) ∧
    ((getOkResults ((getOkSim (mkSimulationM singleVarModel 1 1
        IntegrationMethod.EULER)).sensitivity_analysis (fun x => x) "x"
        (1/2) (9/10) 20)).map (fun q => q.1)).getLast? = some (9/10) ∧
    (∀ q ∈ getOkResults ((getOkSim (mkSimulationM singleVarModel 1 1
        IntegrationMethod.EULER)).sensitivity_analysis (fun x => x) "x"
        (1/2) (9/10) 20),
      ∃ p, q.2.find? (fun r => r.1 == "x") = some p ∧
        p.2.head? = some q.1) :=
  c5_sensitivity_sampling (fun x => x) singleVarModel 1 1
    IntegrationMethod.EULER
    (getOkSim (mkSimulationM singleVarModel 1 1 IntegrationMethod.EULER))
    "x" (SimVariable.create "x" 1 VariableType.AUXILIARY)
    (getOkResults ((getOkSim (mkSimulationM singleVarModel 1 1
      IntegrationMethod.EULER)).sensitivity_analysis (fun x => x) "x"
      (1/2) (9/10) 20))
    (by with_unfolding_all rfl) (by with_unfolding_all rfl) (by decide)
    (by with_unfolding_all rfl)

/-- C6: every sensitivity sample runs on a registry rebuilt from the
immutable construction-time specification: the mapping entry at each index `i`
equals a fresh standalone simulation of `time_steps` steps started with the
swept variable set to the `i`-th sample — independent of which other samples
ran — and the invoking simulation's mutable state is irrelevant: stepping it
any number of times yields the identical sweep output, so the sweep neither
reads nor disturbs the invoking run's variables, results or current step. -/
theorem c6_sensitivity_isolation (sig : ℚ → ℚ) (vars : List SimVariable)
    (n : ℕ) (dt : ℚ) (im : IntegrationMethod) (sim0 : Simulation)
    (v : String) (low high : ℚ) (steps : ℕ)
    (mp : List (ℚ × List (String × List ℚ)))
    (h : mkSimulationM vars n dt im = Except.ok sim0)
    (hmp : sim0.sensitivity_analysis sig v low high steps = Except.ok mp) :
    (∀ i : ℕ, mp[i]? = ((samplePoints low high steps)[i]?).map (fun w =>
      (w, standaloneResults sig vars v w n dt im))) ∧
    (∀ j : ℕ, (stepN sig j sim0).sensitivity_analysis sig v low high steps =
      Except.ok mp) := by
  have inv := mkSimulationM_ok_inv h
  unfold Simulation.sensitivity_analysis at hmp
  by_cases h1 : steps < 1
  · rw [if_pos h1] at hmp
    exact Except.noConfusion hmp
  rw [if_neg h1] at hmp
  by_cases h2 : high < low
  · rw [if_pos h2] at hmp
    exact Except.noConfusion hmp
  rw [if_neg h2] at hmp
  have hmp' : (samplePoints low high steps).map (fun w =>
      (w, standaloneResults sig sim0.initial_vars v w sim0.time_steps
        sim0.dt sim0.integration_method)) = mp := by
    injection hmp
  constructor
  · intro i
    rw [← hmp', List.getElem?_map, inv.1, inv.2.2.2.1, inv.2.2.2.2.1,
      inv.2.2.2.2.2.1]
  · intro j
    unfold Simulation.sensitivity_analysis
    rw [if_neg h1, if_neg h2, (stepN_fixed sig j sim0).1,
      (stepN_fixed sig j sim0).2.2.1, (stepN_fixed sig j sim0).2.2.2.1,
      (stepN_fixed sig j sim0).2.2.2.2, hmp']

/-- Witness for C6: the isolation facts instantiated on a one-variable
simulation swept over `(0, 1)` in 3 samples. -/
theorem c6_sensitivity_isolation_witness :
    (∀ i : ℕ, (getOkResults ((getOkSim (mkSimulationM singleVarModel 1 1
        IntegrationMethod.EULER)).sensitivity_analysis (fun x => x) "x"
        0 1 3))[i]? = ((samplePoints 0 1 3)[i]?).map (fun w =>
      (w, standaloneResults (fun x => x) singleVarModel "x" w 1 1
        IntegrationMethod.EULER))) ∧
    (∀ j : ℕ, (stepN (fun x => x) j (getOkSim (mkSimulationM singleVarModel
        1 1 IntegrationMethod.EULER))).sensitivity_analysis (fun x => x) "x"
        0 1 3 =
      Except.ok (getOkResults ((getOkSim (mkSimulationM singleVarModel 1 1
        IntegrationMethod.EULER)).sensitivity_analysis (fun x => x) "x"
        0 1 3))) :=
  c6_sensitivity_isolation (fun x => x) singleVarModel 1 1
    IntegrationMethod.EULER
    (getOkSim (mkSimulationM singleVarModel 1 1 IntegrationMethod.EULER))
    "x" 0 1 3
    (getOkResults ((getOkSim (mkSimulationM singleVarModel 1 1
      IntegrationMethod.EULER)).sensitivity_analysis (fun x => x) "x" 0 1 3))
    (by with_unfolding_all rfl) (by with_unfolding_all rfl)
